import Mathlib

/-!
Verification of the Saga3D persistence subsystem.

A shallow embedding of `src/services/StorageService.ts` (class `StorageService`)
and of the saved-diagram reducers in `src/contexts/DiagramContext.tsx` and
`src/hooks/useDiagramState.ts`, together with proofs of the testable
properties stated in the specification.

Modelling conventions:
* JavaScript/JSON values are modelled by the inductive `Json`; `JSON.stringify`
  followed by `JSON.parse` is the identity on such values, so a stored string
  that parses is represented by the `Json` value it parses to (`Raw.json`),
  and a stored string that does not parse as JSON by `Raw.plain`.
* `localStorage` is a finite association list from keys to `Raw` values inside
  the state `LS`.  `getItem`/`removeItem` are modelled as total (they do not
  throw); the failure script `LS.faults` drives `setItem`, which is the only
  primitive whose failures (`QuotaExceededError` / other `DOMException`s) the
  source distinguishes.
* `console.warn("Filtered out n invalid diagrams")` at the two call sites in
  `saveDiagrams`/`loadDiagrams` is recorded in `LS.droppedWarns`; the
  `storage-quota-exceeded` `CustomEvent` is recorded in `LS.events`.
-/

set_option maxRecDepth 4000

namespace Saga3D

/-- A JSON/JavaScript value.  Object fields keep insertion order; the encoders
in this development never produce a duplicate key. -/
inductive Json where
  | null
  | bool (b : Bool)
  | num (n : Int)
  | str (s : String)
  | arr (elems : List Json)
  | obj (fields : List (String × Json))
deriving Repr

namespace Json

mutual

/-- Structural equality test, hand-written because the deriving handler
cannot see through the nested `List` positions of `arr` and `obj`. -/
def jeq : Json → Json → Bool
  | null, null => true
  | bool x, bool y => x == y
  | num x, num y => x == y
  | str x, str y => x == y
  | arr x, arr y => jeqElems x y
  | obj x, obj y => jeqFields x y
  | _, _ => false

/-- The test `jeq` lifted elementwise to array contents. -/
def jeqElems : List Json → List Json → Bool
  | [], [] => true
  | u :: us, v :: vs => jeq u v && jeqElems us vs
  | _, _ => false

/-- The test `jeq` lifted to object field lists (names compared as strings). -/
def jeqFields : List (String × Json) → List (String × Json) → Bool
  | [], [] => true
  | (n₁, u) :: us, (n₂, v) :: vs => n₁ == n₂ && jeq u v && jeqFields us vs
  | _, _ => false

end

mutual

theorem jeq_iff_eq : ∀ x y : Json, jeq x y = true ↔ x = y
  | null, null => by simp [jeq]
  | bool _, bool _ => by simp [jeq]
  | num _, num _ => by simp [jeq]
  | str _, str _ => by simp [jeq]
  | arr u, arr v => by simp [jeq, jeqElems_iff_eq u v]
  | obj u, obj v => by simp [jeq, jeqFields_iff_eq u v]
  | bool _, null | num _, null | str _, null | arr _, null
  | obj _, null => ⟨nofun, nofun⟩
  | null, bool _ | num _, bool _ | str _, bool _ | arr _, bool _
  | obj _, bool _ => ⟨nofun, nofun⟩
  | null, num _ | bool _, num _ | str _, num _ | arr _, num _
  | obj _, num _ => ⟨nofun, nofun⟩
  | null, str _ | bool _, str _ | num _, str _ | arr _, str _
  | obj _, str _ => ⟨nofun, nofun⟩
  | null, arr _ | bool _, arr _ | num _, arr _ | str _, arr _
  | obj _, arr _ => ⟨nofun, nofun⟩
  | null, obj _ | bool _, obj _ | num _, obj _ | str _, obj _
  | arr _, obj _ => ⟨nofun, nofun⟩

theorem jeqElems_iff_eq : ∀ us vs : List Json, jeqElems us vs = true ↔ us = vs
  | [], [] => by simp [jeqElems]
  | [], _ :: _ => ⟨nofun, nofun⟩
  | _ :: _, [] => ⟨nofun, nofun⟩
  | u :: us, v :: vs => by
      simp [jeqElems, jeq_iff_eq u v, jeqElems_iff_eq us vs]

theorem jeqFields_iff_eq :
    ∀ us vs : List (String × Json), jeqFields us vs = true ↔ us = vs
  | [], [] => by simp [jeqFields]
  | [], _ :: _ => ⟨nofun, nofun⟩
  | _ :: _, [] => ⟨nofun, nofun⟩
  | (n₁, u) :: us, (n₂, v) :: vs => by
      simp [jeqFields, jeq_iff_eq u v, jeqFields_iff_eq us vs, and_assoc]

end

instance : DecidableEq Json := fun x y =>
  decidable_of_iff (jeq x y = true) (jeq_iff_eq x y)

/-- JavaScript truthiness of a value (`if (x)`). `NaN` does not arise because
numbers are modelled as integers. -/
def truthy : Json → Bool
  | .null => false
  | .bool b => b
  | .num n => n ≠ 0
  | .str s => s ≠ ""
  | .arr _ => true
  | .obj _ => true

/-- The test `typeof x === 'object'` for a JSON-representable value: `null`, arrays and
objects all answer `'object'`. -/
def isObjType : Json → Bool
  | .null => true
  | .arr _ => true
  | .obj _ => true
  | _ => false

/-- The test `typeof x === 'string'`. -/
def isStr : Json → Bool
  | .str _ => true
  | _ => false

/-- Property access `j.k` on a value: `some` for a present object field,
`none` (JavaScript `undefined`) otherwise — in particular on arrays and
primitives, whose named properties used by the source are all absent. -/
def getField (j : Json) (k : String) : Option Json :=
  match j with
  | .obj fields => (fields.find? (fun p => p.1 = k)).map (fun p => p.2)
  | _ => none

mutual

/-- Model of `JSON.stringify` (compact form; string escaping is elided, and the
pretty-printing argument `null, 2` used by `createBackup` is ignored).  The
development uses it only for byte-length accounting and for reading a stored
value back as text, and no proved property depends on the exact rendering. -/
def stringify : Json → String
  | .null => "null"
  | .bool b => if b then "true" else "false"
  | .num n => toString n
  | .str s => "\x22" ++ s ++ "\x22"
  | .arr elems => "[" ++ stringifyList elems ++ "]"
  | .obj fields => "\x7b" ++ stringifyFields fields ++ "\x7d"

def stringifyList : List Json → String
  | [] => ""
  | [x] => stringify x
  | x :: xs => stringify x ++ "," ++ stringifyList xs

def stringifyFields : List (String × Json) → String
  | [] => ""
  | [(k, v)] => "\x22" ++ k ++ "\x22:" ++ stringify v
  | (k, v) :: xs => "\x22" ++ k ++ "\x22:" ++ stringify v ++ "," ++ stringifyFields xs

end

end Json

/-- Truthiness of a property-access result (`j.k` may be `undefined`). -/
def jsTruthy : Option Json → Bool
  | some j => j.truthy
  | none => false

/-- The test `typeof j.k === 'string'` (an absent field is `undefined`). -/
def jsIsStr : Option Json → Bool
  | some j => j.isStr
  | none => false

/-- The test `typeof j.k === 'object'`. -/
def jsIsObjType : Option Json → Bool
  | some j => j.isObjType
  | none => false

/-- The test `Array.isArray(j.k)`. -/
def jsIsArr : Option Json → Bool
  | some (.arr _) => true
  | _ => false

/-- A value stored in `localStorage`.  A string that parses as JSON is
represented by its parse (`json`); a string that is not valid JSON — or one
written directly rather than through `JSON.stringify`, such as the
last-opened diagram id — is kept as text (`plain`).  `JSON.parse` succeeds
exactly on the `json` case. -/
inductive Raw where
  | json (j : Json)
  | plain (s : String)
deriving DecidableEq, Repr

namespace Raw

/-- The text of the stored string (its `JSON.stringify` rendering for a
parsed value). -/
def str : Raw → String
  | json j => j.stringify
  | plain s => s

/-- JavaScript truthiness of the stored string: only the empty string is
falsy, and a JSON serialization is never the empty string. -/
def truthy : Raw → Bool
  | json _ => true
  | plain s => s ≠ ""

/-- Model of `new TextEncoder().encode(value).length` — the UTF-8 byte length of the
stored string. -/
def byteLen (r : Raw) : Nat := r.str.utf8ByteSize

end Raw

/-- Outcome scripted for one raw `localStorage.setItem` call: success, a
`DOMException` named `QuotaExceededError`, or any other failure. -/
inductive SetFault where
  | ok
  | quota
  | io
deriving DecidableEq, Repr

/-- The `storage-quota-exceeded` `CustomEvent` detail dispatched by
`handleQuotaExceeded`. -/
structure QuotaEvent where
  message : String
  freedSpace : Nat
  recoveryAttempted : Bool
deriving DecidableEq, Repr

/-- The world the service runs in: the `localStorage` contents plus the
observable effects the source produces.

* `store` — key/value pairs in insertion order (as `Object.keys` reports).
* `faults` — script of outcomes for the successive raw `setItem` calls; an
  exhausted script means every further `setItem` succeeds.
* `attempts` — how many raw `setItem` calls have been made (each `setItem`
  consumes one script entry and increments this, whether or not it fails).
* `events` — dispatched `storage-quota-exceeded` events, oldest first.
* `droppedWarns` — the counts `n` of the `"Filtered out n invalid diagrams"`
  warnings issued by `saveDiagrams`/`loadDiagrams`.
* `now` — the clock read by `Date.now()`. -/
structure LS where
  store : List (String × Raw)
  faults : List SetFault
  attempts : Nat
  events : List QuotaEvent
  droppedWarns : List Nat
  now : Int
deriving DecidableEq, Repr

/-- The storage keys of `StorageService` (`STORAGE_PREFIX` is the literal
`"saga3d-"`, inlined below where the source uses `startsWith`). -/
def DIAGRAMS_KEY : String := "saga3d-diagrams"

def LAST_OPENED_KEY : String := "saga3d-last-opened"

def LAST_OPENED_DATA_KEY : String := "saga3d-last-opened-data"

/-- Lookup in a key/value association list (first binding wins, as reads of
`localStorage` do). -/
def listGet (st : List (String × Raw)) (k : String) : Option Raw :=
  (st.find? (fun p => p.1 = k)).map (fun p => p.2)

/-- Lookup in the backing store (`localStorage.getItem`). -/
def lsGet (s : LS) (k : String) : Option Raw :=
  listGet s.store k

/-- Model of `localStorage.setItem` on the raw association list: overwrite in place
when the key exists, append otherwise. -/
def storeSet (st : List (String × Raw)) (k : String) (v : Raw) :
    List (String × Raw) :=
  if st.any (fun p => p.1 = k) then
    st.map (fun p => if p.1 = k then (k, v) else p)
  else st ++ [(k, v)]

/-- Model of `localStorage.removeItem` on the raw association list. -/
def storeRemove (st : List (String × Raw)) (k : String) : List (String × Raw) :=
  st.filter (fun p => p.1 ≠ k)

/-- One raw `localStorage.setItem` call: consumes the next scripted outcome
(success when the script is exhausted); the store changes only on success. -/
def setItem (s : LS) (k : String) (v : Raw) : SetFault × LS :=
  let f := s.faults.headD .ok
  let s' : LS :=
    { s with attempts := s.attempts + 1, faults := s.faults.tail }
  match f with
  | .ok => (.ok, { s' with store := storeSet s'.store k v })
  | f => (f, s')

/-- Model of `safeGetItem`: the `try` branch returns `localStorage.getItem(key)`;
reads are modelled as total, so the logging `catch` is unreachable. -/
def safeGetItem (s : LS) (k : String) : Option Raw := lsGet s k

/-- Model of `safeRemoveItem`: removal is modelled as total, so this always returns
`true` after removing the key. -/
def safeRemoveItem (s : LS) (k : String) : Bool × LS :=
  (true, { s with store := storeRemove s.store k })

/-- Model of `clearLastOpened`: removes both last-opened keys; both removals succeed
in the model, so it returns `true`. -/
def clearLastOpened (s : LS) : Bool × LS :=
  let (ok₁, s₁) := safeRemoveItem s LAST_OPENED_KEY
  let (ok₂, s₂) := safeRemoveItem s₁ LAST_OPENED_DATA_KEY
  (ok₁ && ok₂, s₂)

/-- The fixed cleanup list of `handleQuotaExceeded`
(`['saga3d-temp-data', 'saga3d-backup-data', 'saga3d-cache-data']`). -/
def tempKeys : List String :=
  ["saga3d-temp-data", "saga3d-backup-data", "saga3d-cache-data"]

/-- One step of the `tempKeys.forEach` loop: read the key, and when its value
is truthy add its byte length to `freedSpace` and remove it. -/
def quotaCleanupStep (acc : Nat × LS) (k : String) : Nat × LS :=
  match safeGetItem acc.2 k with
  | some v =>
      if v.truthy then
        (acc.1 + v.byteLen, (safeRemoveItem acc.2 k).2)
      else acc
  | none => acc

/-- Model of `handleQuotaExceeded`: clear the temporary keys, additionally clear the
last-opened pair when less than 100KB was freed, and dispatch one
`storage-quota-exceeded` event with `recoveryAttempted: true`.  Nothing in
the `try` block can throw in the model, so the fallback `catch` event is
unreachable. -/
def handleQuotaExceeded (s : LS) : LS :=
  let acc := tempKeys.foldl quotaCleanupStep (0, s)
  let s₂ := if acc.1 < 100 * 1024 then (clearLastOpened acc.2).2 else acc.2
  { s₂ with
    events := s₂.events ++
      [{ message := "Storage quota exceeded. Please manage your diagrams."
         freedSpace := acc.1
         recoveryAttempted := true }] }

/-- Model of `safeSetItem`: attempt the raw write; on a `QuotaExceededError` run
`handleQuotaExceeded` and report failure, on any other failure just report
failure. -/
def safeSetItem (s : LS) (k : String) (v : Raw) : Bool × LS :=
  match setItem s k v with
  | (.ok, s') => (true, s')
  | (.quota, s') => (false, handleQuotaExceeded s')
  | (.io, s') => (false, s')

/-- The validation filter of `saveDiagrams`: the entry is a truthy object
with a truthy string `id`, a truthy string `name` and a truthy object
`data`. -/
def entryValidSave (j : Json) : Bool :=
  j.truthy && j.isObjType &&
  jsTruthy (j.getField "id") && jsIsStr (j.getField "id") &&
  jsTruthy (j.getField "name") && jsIsStr (j.getField "name") &&
  jsTruthy (j.getField "data") && jsIsObjType (j.getField "data")

/-- The value `x` when the field is an array, `[]` otherwise
(`Array.isArray(x) ? x : []`). -/
def arrOr (x : Option Json) : Json :=
  match x with
  | some (.arr elems) => .arr elems
  | _ => .arr []

/-- A field of an object literal whose value may be `undefined`:
`JSON.stringify` drops it, so an absent source field produces no field. -/
def optField (k : String) (x : Option Json) : List (String × Json) :=
  match x with
  | some v => [(k, v)]
  | none => []

/-- The expression `x || 'Untitled'` applied to the payload's `title` property: the value
itself when truthy, the string `'Untitled'` otherwise (also when the
property is absent). -/
def jsOrUntitled (x : Option Json) : Json :=
  match x with
  | some t => if t.truthy then t else .str "Untitled"
  | none => .str "Untitled"

/-- The sanitized `data` object built identically by `saveDiagrams` (lines
140–149) and `saveLastOpened` (lines 223–232): `title` defaulted to
`'Untitled'` when falsy, `icons` always emptied, `colors`/`items`/`views`
coerced to arrays, `version`/`description`/`fitToScreen` passed through. -/
def sanitizeData (d : Json) : Json :=
  .obj
    ([("title", jsOrUntitled (d.getField "title"))] ++
     optField "version" (d.getField "version") ++
     optField "description" (d.getField "description") ++
     [("icons", .arr []),
      ("colors", arrOr (d.getField "colors")),
      ("items", arrOr (d.getField "items")),
      ("views", arrOr (d.getField "views"))] ++
     optField "fitToScreen" (d.getField "fitToScreen"))

/-- The object stored for one diagram by `saveDiagrams`: `id`, `name`,
`createdAt`, `updatedAt` copied (absent timestamps are dropped by
`JSON.stringify`), `data` sanitized.  Only called on entries that passed
`entryValidSave`, so `id` and `name` are present strings and `data` is a
present object. -/
def sanitizeEntry (j : Json) : Json :=
  .obj
    ([("id", (j.getField "id").getD .null),
      ("name", (j.getField "name").getD .null)] ++
     optField "createdAt" (j.getField "createdAt") ++
     optField "updatedAt" (j.getField "updatedAt") ++
     [("data", sanitizeData ((j.getField "data").getD .null))])

/-- Model of `saveDiagrams`: filter invalid entries (warning with the dropped count),
sanitize the valid ones and write the serialized array under
`DIAGRAMS_KEY`.  The input is a list, so the `!Array.isArray` guard cannot
fire; the 2MB size warning has no observable effect and is not recorded. -/
def saveDiagrams (s : LS) (diagrams : List Json) : Bool × LS :=
  let validDiagrams := diagrams.filter entryValidSave
  let s₁ :=
    if validDiagrams.length ≠ diagrams.length then
      { s with droppedWarns :=
          s.droppedWarns ++ [diagrams.length - validDiagrams.length] }
    else s
  let diagramsForStorage := validDiagrams.map sanitizeEntry
  safeSetItem s₁ DIAGRAMS_KEY (Raw.json (.arr diagramsForStorage))

/-- The validation filter of `loadDiagrams`: a truthy entry with string `id`
and `name` (possibly empty — only `typeof` is checked here) and a truthy
object `data`. -/
def entryValidLoad (j : Json) : Bool :=
  j.truthy &&
  jsIsStr (j.getField "id") && jsIsStr (j.getField "name") &&
  jsTruthy (j.getField "data") && jsIsObjType (j.getField "data")

/-- Model of `loadDiagrams`: absent or empty raw value means "no data yet" and yields
`[]`;  a raw value that does not parse is cleared and yields `[]`;  a parse
that is not an array is reset by saving `[]`;  otherwise invalid entries are
filtered out (warning with the dropped count) and, when any were dropped,
the cleaned array is saved back. -/
def loadDiagrams (s : LS) : List Json × LS :=
  match safeGetItem s DIAGRAMS_KEY with
  | none => ([], s)
  | some r =>
    if !r.truthy then ([], s)
    else
      match r with
      | .plain _ => ([], (safeRemoveItem s DIAGRAMS_KEY).2)
      | .json j =>
        match j with
        | .arr parsed =>
          let validDiagrams := parsed.filter entryValidLoad
          if validDiagrams.length ≠ parsed.length then
            let s₁ :=
              { s with droppedWarns :=
                  s.droppedWarns ++ [parsed.length - validDiagrams.length] }
            (validDiagrams, (saveDiagrams s₁ validDiagrams).2)
          else (validDiagrams, s)
        | _ => ([], (saveDiagrams s []).2)

/-- Model of `saveLastOpened`: validate the id (truthy non-empty string) and the data
(truthy object), then store the id as a raw string under `LAST_OPENED_KEY`
and the sanitized data (same shape as in `saveDiagrams`) serialized under
`LAST_OPENED_DATA_KEY`. -/
def saveLastOpened (s : LS) (diagramId : Json) (diagramData : Json) :
    Bool × LS :=
  if !(diagramId.truthy && diagramId.isStr) then (false, s)
  else if !(diagramData.truthy && diagramData.isObjType) then (false, s)
  else
    let idStr := match diagramId with | .str t => t | _ => ""
    let r₁ := safeSetItem s LAST_OPENED_KEY (Raw.plain idStr)
    let r₂ :=
      safeSetItem r₁.2 LAST_OPENED_DATA_KEY (Raw.json (sanitizeData diagramData))
    (r₁.1 && r₂.1, r₂.2)

/-- The `validatedData` object built by `loadLastOpened`: like
`sanitizeData` but `icons` is coerced (`Array.isArray ? : []`) instead of
hard-emptied. -/
def validateData (d : Json) : Json :=
  .obj
    ([("title", jsOrUntitled (d.getField "title"))] ++
     optField "version" (d.getField "version") ++
     optField "description" (d.getField "description") ++
     [("icons", arrOr (d.getField "icons")),
      ("colors", arrOr (d.getField "colors")),
      ("items", arrOr (d.getField "items")),
      ("views", arrOr (d.getField "views"))] ++
     optField "fitToScreen" (d.getField "fitToScreen"))

/-- Model of `loadLastOpened`: `null` when either stored value is absent or empty
(`if (!id || !dataStr) return null`, with no write); both last-opened keys
cleared and `null` returned when the data string does not parse or parses to
a falsy/non-object value; otherwise the id (as stored) and the validated
data object.  The `typeof id !== 'string' || id.length === 0` branch of the
source is unreachable: a stored value is always a string and the empty
string was already caught by `!id`. -/
def loadLastOpened (s : LS) : Option (Raw × Json) × LS :=
  match safeGetItem s LAST_OPENED_KEY, safeGetItem s LAST_OPENED_DATA_KEY with
  | some idr, some datar =>
    if !idr.truthy || !datar.truthy then (none, s)
    else
      match datar with
      | .plain _ => (none, (clearLastOpened s).2)
      | .json data =>
        if !(data.truthy && data.isObjType) then (none, (clearLastOpened s).2)
        else (some (idr, validateData data), s)
  | _, _ => (none, s)

/-- The `StorageInfo` snapshot. -/
structure StorageInfo where
  used : Nat
  diagrams : Nat
  otherData : Nat
  quota : Nat
deriving DecidableEq, Repr

/-- One iteration of the `getStorageInfo` key loop: skip falsy values
(`if (!value) continue`), otherwise add the byte length to the total and to
the prefixed/other bucket. -/
def storageInfoStep (acc : StorageInfo) (p : String × Raw) : StorageInfo :=
  if !p.2.truthy then acc
  else
    let size := p.2.byteLen
    { acc with
      used := acc.used + size
      diagrams :=
        if p.1.startsWith "saga3d-" then acc.diagrams + size else acc.diagrams
      otherData :=
        if p.1.startsWith "saga3d-" then acc.otherData else acc.otherData + size }

/-- Model of `getStorageInfo`: fold over every stored key.  The quota is the 5MB
fallback: the `navigator.storage.estimate()` promise resolves only after the
function has returned, so the fallback is always what callers observe. -/
def getStorageInfo (s : LS) : StorageInfo :=
  s.store.foldl storageInfoStep
    { used := 0, diagrams := 0, otherData := 0, quota := 5 * 1024 * 1024 }

def StorageInfo.toJson (i : StorageInfo) : Json :=
  .obj [("used", .num i.used), ("diagrams", .num i.diagrams),
        ("otherData", .num i.otherData), ("quota", .num i.quota)]

/-- Model of `clearAllData`: remove every key starting with the `saga3d-` prefix. -/
def clearAllData (s : LS) : Bool × LS :=
  (true, { s with store := s.store.filter (fun p => !p.1.startsWith "saga3d-") })

/-- Model of `createBackup`: serialize `{timestamp, version: '1.0', data: {diagrams,
lastOpened, storageInfo}}` from the current store.  Nothing in the `try`
block can throw in the model, so the result is never `none`. -/
def createBackup (s : LS) : Option Raw × LS :=
  let rd := loadDiagrams s
  let rl := loadLastOpened rd.2
  let storageInfo := getStorageInfo rl.2
  let lastOpenedJson : Json :=
    match rl.1 with
    | none => .null
    | some (idr, data) => .obj [("id", .str idr.str), ("data", data)]
  let backup : Json :=
    .obj [("timestamp", .num rl.2.now), ("version", .str "1.0"),
          ("data", .obj [("diagrams", .arr rd.1),
                         ("lastOpened", lastOpenedJson),
                         ("storageInfo", storageInfo.toJson)])]
  (some (Raw.json backup), rl.2)

/-- The result record of `restoreFromBackup`. -/
structure RestoreResult where
  success : Bool
  message : String
  restoredCount : Nat
deriving DecidableEq, Repr

/-- Model of `restoreFromBackup`: parse the snapshot; reject it (without touching the
store) unless `backup.data` is truthy and `backup.data.diagrams` is an
array — `formatVersion` is never examined;  on acceptance clear the whole
`saga3d-` namespace, save the snapshot's diagrams, and save its last-opened
record when truthy.  The interpolated error text of the `catch` message is
modelled by the constant `"Restore failed"`. -/
def restoreFromBackup (s : LS) (backupData : Raw) : RestoreResult × LS :=
  match backupData with
  | .plain _ =>
      ({ success := false, message := "Restore failed", restoredCount := 0 }, s)
  | .json backup =>
    if !(jsTruthy (backup.getField "data") &&
         jsIsArr (((backup.getField "data").getD .null).getField "diagrams")) then
      ({ success := false, message := "Invalid backup format",
         restoredCount := 0 }, s)
    else
      let dataJ := (backup.getField "data").getD .null
      let diagrams :=
        match dataJ.getField "diagrams" with
        | some (.arr elems) => elems
        | _ => []
      let s₁ := (clearAllData s).2
      let rs := saveDiagrams s₁ diagrams
      let s₃ :=
        match dataJ.getField "lastOpened" with
        | some lo =>
            if lo.truthy then
              (saveLastOpened rs.2 ((lo.getField "id").getD .null)
                ((lo.getField "data").getD .null)).2
            else rs.2
        | none => rs.2
      ({ success := rs.1
         message :=
           if rs.1 then "Backup restored successfully"
           else "Failed to restore backup"
         restoredCount := if rs.1 then diagrams.length else 0 }, s₃)

/-- The per-diagram issue list of `checkDataIntegrity`, in source order:
required fields, then the `data` structure checks (run only when `data` is
truthy). -/
def integrityIssues (j : Json) : List String :=
  (if !jsTruthy (j.getField "id") then ["Missing ID"] else []) ++
  (if !jsTruthy (j.getField "name") then ["Missing name"] else []) ++
  (if !jsTruthy (j.getField "data") then ["Missing data"] else []) ++
  (if jsTruthy (j.getField "data") then
    let d := (j.getField "data").getD .null
    (if !jsTruthy (d.getField "title") then ["Missing title"] else []) ++
    (if !jsIsArr (d.getField "items") then ["Invalid items array"] else []) ++
    (if !jsIsArr (d.getField "views") then ["Invalid views array"] else []) ++
    (if !jsIsArr (d.getField "colors") then ["Invalid colors array"] else [])
  else [])

/-- String conversion of a value in a template literal.  Only the string case
is reachable for entries that passed the `loadDiagrams` filter (both `name`
and `id` have `typeof === 'string'` there). -/
def jsDisplay : Json → String
  | .str t => t
  | j => j.stringify

/-- The accumulated issue line
`Diagram "${diagram.name || diagram.id}": ${diagramIssues.join(', ')}`. -/
def issueLine (j : Json) : String :=
  "Diagram \x22" ++
  (match (if jsTruthy (j.getField "name") then j.getField "name"
          else j.getField "id") with
   | some v => jsDisplay v
   | none => "undefined") ++
  "\x22: " ++ String.intercalate ", " (integrityIssues j)

/-- The result record of `checkDataIntegrity`. -/
structure IntegrityResult where
  isValid : Bool
  issues : List String
  autoFixed : Bool
deriving DecidableEq, Repr

/-- Model of `checkDataIntegrity`: load the diagrams (an empty collection is valid),
split them by `integrityIssues` (the source's single pass is split into the
two order-preserving filters), auto-fix by re-saving the valid subset when
some — but not all — diagrams are invalid, then check the last-opened
record.  The corrupted-last-opened branch is kept although `loadLastOpened`
can only return records with truthy `id` and `data`.  Nothing in the `try`
block throws in the model, so the failure result is unreachable. -/
def checkDataIntegrity (s : LS) : IntegrityResult × LS :=
  let rd := loadDiagrams s
  let diagrams := rd.1
  if diagrams.length = 0 then
    ({ isValid := true, issues := [], autoFixed := false }, rd.2)
  else
    let validDiagrams := diagrams.filter (fun d => (integrityIssues d).isEmpty)
    let issues :=
      (diagrams.filter (fun d => !(integrityIssues d).isEmpty)).map issueLine
    let fixNeeded :=
      validDiagrams.length ≠ diagrams.length && validDiagrams.length > 0
    let save := if fixNeeded then saveDiagrams rd.2 validDiagrams
                else (false, rd.2)
    let autoFixed₁ := fixNeeded && save.1
    let issues₁ :=
      if fixNeeded && save.1 then
        issues ++
          ["Auto-fixed: Removed " ++
            toString (diagrams.length - validDiagrams.length) ++
            " corrupted diagrams"]
      else issues
    let lo := loadLastOpened save.2
    match lo.1 with
    | some (idr, d) =>
      if !idr.truthy || !d.truthy then
        ({ isValid := (issues₁ ++ ["Last opened data is corrupted"]).isEmpty
           issues := issues₁ ++ ["Last opened data is corrupted"]
           autoFixed := true }, (clearLastOpened lo.2).2)
      else
        ({ isValid := issues₁.isEmpty, issues := issues₁,
           autoFixed := autoFixed₁ }, lo.2)
    | none =>
        ({ isValid := issues₁.isEmpty, issues := issues₁,
           autoFixed := autoFixed₁ }, lo.2)

/-! ## The typed document model

`DiagramData` and `SavedDiagram` mirror the TypeScript interfaces in the
types index (`title: string; version?: string; description?: string;
icons/colors/items/views: arrays; fitToScreen?: boolean` and `id/name/
createdAt/updatedAt: string; data: DiagramData`).  Their `toJson` encodings
list the fields in the order of the storage object literals; optional fields
that are absent produce no JSON field, as `JSON.stringify` drops
`undefined`. -/

structure DiagramData where
  title : String
  version : Option String
  description : Option String
  icons : List Json
  colors : List Json
  items : List Json
  views : List Json
  fitToScreen : Option Bool
deriving DecidableEq, Repr

def DiagramData.toJson (d : DiagramData) : Json :=
  .obj
    ([("title", .str d.title)] ++
     optField "version" (d.version.map .str) ++
     optField "description" (d.description.map .str) ++
     [("icons", .arr d.icons), ("colors", .arr d.colors),
      ("items", .arr d.items), ("views", .arr d.views)] ++
     optField "fitToScreen" (d.fitToScreen.map .bool))

structure SavedDiagram where
  id : String
  name : String
  data : DiagramData
  createdAt : String
  updatedAt : String
deriving DecidableEq, Repr

def SavedDiagram.toJson (sd : SavedDiagram) : Json :=
  .obj [("id", .str sd.id), ("name", .str sd.name),
        ("createdAt", .str sd.createdAt), ("updatedAt", .str sd.updatedAt),
        ("data", sd.data.toJson)]

/-- A schema-valid document: non-empty `id` and `name` (the payload's
`items`/`views`/`colors` are arrays by typing). -/
def SavedDiagram.schemaValid (sd : SavedDiagram) : Prop :=
  sd.id ≠ "" ∧ sd.name ≠ ""

instance (sd : SavedDiagram) : Decidable sd.schemaValid := by
  unfold SavedDiagram.schemaValid; infer_instance

/-- What persistence does to a payload: `icons` emptied and a falsy `title`
replaced by `'Untitled'`. -/
def DiagramData.normalize (d : DiagramData) : DiagramData :=
  { d with
    title := if d.title = "" then "Untitled" else d.title
    icons := [] }

def SavedDiagram.normalize (sd : SavedDiagram) : SavedDiagram :=
  { sd with data := sd.data.normalize }

/-! ## The saved-diagram reducers (claim C9)

`DiagramContext.tsx`: `saveDiagram` looks up `findIndex(d => d.id ===
savedDiagram.id)` and dispatches `UPDATE_SAVED_DIAGRAM` (a map replacing
every entry with that id) when found, `ADD_SAVED_DIAGRAM` (append)
otherwise.  `useDiagramState.ts`: `saveDiagram` maps over the list replacing
entries with the current diagram's id when a diagram is open (the new record
reuses that id), and appends otherwise. -/

def saveDiagramCtx (ds : List SavedDiagram) (nd : SavedDiagram) :
    List SavedDiagram :=
  if ds.any (fun d => d.id = nd.id) then
    ds.map (fun d => if d.id = nd.id then nd else d)
  else ds ++ [nd]

def saveDiagramHook (ds : List SavedDiagram) (current : Option SavedDiagram)
    (nd : SavedDiagram) : List SavedDiagram :=
  match current with
  | some currentDiagram =>
      ds.map (fun d => if d.id = currentDiagram.id then nd else d)
  | none => ds ++ [nd]

/-! ## Predicates used by the claim statements -/

/-- The keys the quota cleanup is allowed to remove: the fixed temporary
list plus the two last-opened keys (cleared when under 100KB was freed). -/
def lowPriorityKeys : List String :=
  tempKeys ++ [LAST_OPENED_KEY, LAST_OPENED_DATA_KEY]

/-- The round-trip relation exactly as the specification words it: the
document unchanged except that the payload's `icons` field is emptied. -/
def SavedDiagram.stripIcons (sd : SavedDiagram) : SavedDiagram :=
  { sd with data := { sd.data with icons := [] } }

/-- An entry that survives both the load filter and the integrity check. -/
def cleanEntry (e : Json) : Bool :=
  entryValidLoad e && (integrityIssues e).isEmpty

/-- The primary key holds nothing, an empty string, or an array of clean
entries. -/
def diagramsClean (s : LS) : Bool :=
  match lsGet s DIAGRAMS_KEY with
  | none => true
  | some r =>
    !r.truthy ||
    (match r with
     | .json (.arr es) => es.all cleanEntry
     | _ => false)

/-- The last-opened pair is absent/empty or parses to a truthy object. -/
def lastOpenedClean (s : LS) : Bool :=
  match lsGet s LAST_OPENED_KEY, lsGet s LAST_OPENED_DATA_KEY with
  | some idr, some datar =>
    !idr.truthy || !datar.truthy ||
    (match datar with
     | .json d => d.truthy && d.isObjType
     | .plain _ => false)
  | _, _ => true

/-- The stored key exists with a truthy (non-empty) value. -/
def presentTruthy (s : LS) (k : String) : Bool :=
  match lsGet s k with
  | some r => r.truthy
  | none => false

/-- A last-opened data value whose parse fails or yields a falsy/non-object
value — the corruption `loadLastOpened` clears. -/
def corruptData : Raw → Bool
  | .plain _ => true
  | .json d => !(d.truthy && d.isObjType)

/-- A snapshot `restoreFromBackup` rejects: unparseable, or `backup.data`
falsy, or `backup.data.diagrams` not an array. -/
def backupShapeInvalid (r : Raw) : Bool :=
  match r with
  | .plain _ => true
  | .json backup =>
    !(jsTruthy (backup.getField "data") &&
      jsIsArr (((backup.getField "data").getD .null).getField "diagrams"))

/-! ## Concrete instances used by witnesses and counterexamples -/

/-- A fault-free state over an empty store. -/
def baseLS : LS :=
  { store := [], faults := [], attempts := 0, events := [], droppedWarns := [],
    now := 42 }

/-- A well-formed example document in persisted normal form. -/
def exDoc : SavedDiagram :=
  { id := "d1", name := "Checkout Flow",
    data := { title := "Checkout", version := some "1", description := none,
              icons := [], colors := [], items := [.num 1], views := [],
              fitToScreen := some true },
    createdAt := "2024-01-01", updatedAt := "2024-01-02" }

/-- The example document saved again under the same id with a new name. -/
def exDocV2 : SavedDiagram := { exDoc with name := "Checkout Flow v2" }

/-- A schema-valid document (non-empty id and name, array payload fields)
whose payload `title` is the empty string. -/
def exDocEmptyTitle : SavedDiagram :=
  { id := "a", name := "A",
    data := { title := "", version := none, description := none,
              icons := [], colors := [], items := [], views := [],
              fitToScreen := none },
    createdAt := "c", updatedAt := "u" }

/-- An entry that passes the load filter but fails the integrity check
(`items`/`views`/`colors` missing). -/
def exBadEntry : Json :=
  .obj [("id", .str "b"), ("name", .str "B"),
        ("data", .obj [("title", .str "t")])]

/-- An entry lacking the `name` field entirely. -/
def exNoNameEntry : Json :=
  .obj [("id", .str "x"), ("data", .obj [("title", .str "t")])]

/-- A store whose persisted collection mixes one clean and one corrupt
entry. -/
def exMixedLS : LS :=
  { baseLS with
    store := [(DIAGRAMS_KEY, Raw.json (.arr [exDoc.toJson, exBadEntry]))] }

/-- A clean one-document store (normal-form entry, no last-opened pair). -/
def exCleanLS : LS :=
  { baseLS with
    store := [(DIAGRAMS_KEY, Raw.json (.arr [exDoc.normalize.toJson]))] }

/-- A store whose persisted collection is a single corrupt entry. -/
def exAllBadLS : LS :=
  { baseLS with store := [(DIAGRAMS_KEY, Raw.json (.arr [exBadEntry]))] }

/-- A store holding three entries of which exactly the middle one lacks
`name`. -/
def exThreeLS : LS :=
  { baseLS with
    store := [(DIAGRAMS_KEY,
      Raw.json (.arr [exDoc.normalize.toJson, exNoNameEntry,
                      exDocV2.normalize.toJson]))] }

/-- A store holding exactly the two valid entries of the three-entry
store, with no invalid entry to drop. -/
def exTwoValidLS : LS :=
  { baseLS with
    store := [(DIAGRAMS_KEY,
      Raw.json (.arr [exDoc.normalize.toJson, exDocV2.normalize.toJson]))] }

/-- A state whose next raw `setItem` reports `QuotaExceededError`, holding
one temporary key and one foreign key. -/
def exQuotaLS : LS :=
  { baseLS with
    store := [("saga3d-temp-data", Raw.plain "xyz"),
              ("user-key", Raw.plain "keep")],
    faults := [.quota] }

/-- A store whose primary key holds the empty string. -/
def exEmptyStrLS : LS :=
  { baseLS with store := [(DIAGRAMS_KEY, Raw.plain "")] }

/-- A store whose last-opened id is the empty string while the data key
holds a non-empty unparseable string. -/
def exEmptyIdLS : LS :=
  { baseLS with
    store := [(LAST_OPENED_KEY, Raw.plain ""),
              (LAST_OPENED_DATA_KEY, Raw.plain "not-json")] }

/-- The state after persisting `[exDoc]` and its last-opened pointer over
the empty fault-free store. -/
def exPipeState : LS :=
  (saveLastOpened (saveDiagrams baseLS
    ([exDoc].map SavedDiagram.toJson)).2 (.str "d1") exDoc.data.toJson).2

/-- The backup snapshot created over that state. -/
def exBackupRaw : Raw := ((createBackup exPipeState).1).getD (Raw.plain "")

/-- A versioned snapshot whose `version` is `"2.0"` but whose `data.diagrams`
is a well-formed (empty) array. -/
def exVersion20Backup : Json :=
  .obj [("timestamp", .num 0), ("version", .str "2.0"),
        ("data", .obj [("diagrams", .arr []), ("lastOpened", .null)])]

/-! ## Store lookup lemmas -/

theorem listGet_replace_self (st : List (String × Raw)) (k : String) (v : Raw)
    (h : st.any (fun p => p.1 = k) = true) :
    listGet (st.map (fun p => if p.1 = k then (k, v) else p)) k = some v := by
  induction st with
  | nil => simp at h
  | cons p st ih =>
    by_cases hp : p.1 = k
    · simp [listGet, List.find?, hp]
    · simp only [List.any_cons, Bool.or_eq_true, decide_eq_true_eq] at h
      rcases h with h | h
      · exact absurd h hp
      · simpa [listGet, List.find?, hp] using ih h

theorem listGet_replace_other (st : List (String × Raw)) (k k' : String)
    (v : Raw) (h : k' ≠ k) :
    listGet (st.map (fun p => if p.1 = k then (k, v) else p)) k' =
      listGet st k' := by
  induction st with
  | nil => rfl
  | cons p st ih =>
    simp only [List.map_cons]
    by_cases hp : p.1 = k
    · rw [if_pos hp]
      unfold listGet
      rw [List.find?_cons_of_neg _ (by simpa using fun hk : k = k' => h hk.symm),
          List.find?_cons_of_neg _
            (by simp only [decide_eq_true_eq, hp]
                exact fun hk : k = k' => h hk.symm)]
      exact ih
    · rw [if_neg hp]
      by_cases hp' : p.1 = k'
      · unfold listGet
        rw [List.find?_cons_of_pos _ (by simpa using hp'),
            List.find?_cons_of_pos _ (by simpa using hp')]
      · unfold listGet
        rw [List.find?_cons_of_neg _ (by simpa using hp'),
            List.find?_cons_of_neg _ (by simpa using hp')]
        exact ih

theorem listGet_append_right (st : List (String × Raw)) (k : String)
    (v : Raw) (h : st.any (fun p => p.1 = k) = false) :
    listGet (st ++ [(k, v)]) k = some v := by
  induction st with
  | nil => simp [listGet, List.find?_cons_of_pos]
  | cons p st ih =>
    rw [List.any_cons, Bool.or_eq_false_iff] at h
    have h1 : ¬ (p.1 = k) := by simpa using h.1
    simp only [List.cons_append]
    unfold listGet
    rw [List.find?_cons_of_neg _ (by simpa using h1)]
    exact ih h.2

theorem listGet_append_other (st : List (String × Raw)) (k k' : String)
    (v : Raw) (h : k' ≠ k) :
    listGet (st ++ [(k, v)]) k' = listGet st k' := by
  induction st with
  | nil =>
    unfold listGet
    simp only [List.nil_append]
    rw [List.find?_cons_of_neg _
      (by simpa using fun hk : k = k' => h hk.symm)]
  | cons p st ih =>
    simp only [List.cons_append]
    by_cases hp' : p.1 = k'
    · unfold listGet
      rw [List.find?_cons_of_pos _ (by simpa using hp'),
          List.find?_cons_of_pos _ (by simpa using hp')]
    · unfold listGet
      rw [List.find?_cons_of_neg _ (by simpa using hp'),
          List.find?_cons_of_neg _ (by simpa using hp')]
      exact ih

theorem listGet_storeSet_self (st : List (String × Raw)) (k : String)
    (v : Raw) : listGet (storeSet st k v) k = some v := by
  unfold storeSet
  by_cases h : st.any (fun p => p.1 = k)
  · simpa [h] using listGet_replace_self st k v (by simpa using h)
  · simp only [h, if_false]
    exact listGet_append_right st k v
      (by simp only [Bool.not_eq_true] at h; exact h)

theorem listGet_storeSet_other (st : List (String × Raw)) (k k' : String)
    (v : Raw) (h : k' ≠ k) :
    listGet (storeSet st k v) k' = listGet st k' := by
  unfold storeSet
  by_cases ha : st.any (fun p => p.1 = k)
  · simpa [ha] using listGet_replace_other st k k' v h
  · simp only [ha, if_false]
    exact listGet_append_other st k k' v h

theorem listGet_storeRemove_self (st : List (String × Raw)) (k : String) :
    listGet (storeRemove st k) k = none := by
  induction st with
  | nil => rfl
  | cons p st ih =>
    by_cases hp : p.1 = k
    · unfold storeRemove at ih ⊢
      rw [List.filter_cons_of_neg (by simpa using hp)]
      exact ih
    · unfold storeRemove at ih ⊢
      rw [List.filter_cons_of_pos (by simpa using hp)]
      unfold listGet
      rw [List.find?_cons_of_neg _ (by simpa using hp)]
      exact ih

theorem listGet_storeRemove_other (st : List (String × Raw)) (k k' : String)
    (h : k' ≠ k) : listGet (storeRemove st k) k' = listGet st k' := by
  induction st with
  | nil => rfl
  | cons p st ih =>
    by_cases hp : p.1 = k
    · have hne : ¬ (p.1 = k') := by rw [hp]; exact fun hk => h hk.symm
      unfold storeRemove at ih ⊢
      rw [List.filter_cons_of_neg (by simpa using hp)]
      unfold listGet
      rw [List.find?_cons_of_neg _ (by simpa using hne)]
      exact ih
    · unfold storeRemove at ih ⊢
      rw [List.filter_cons_of_pos (by simpa using hp)]
      by_cases hp' : p.1 = k'
      · unfold listGet
        rw [List.find?_cons_of_pos _ (by simpa using hp'),
            List.find?_cons_of_pos _ (by simpa using hp')]
      · unfold listGet
        rw [List.find?_cons_of_neg _ (by simpa using hp'),
            List.find?_cons_of_neg _ (by simpa using hp')]
        exact ih

/-! ## Quota-path lemmas -/

theorem safeSetItem_of_no_fault (s : LS) (k : String) (v : Raw)
    (h : s.faults = []) :
    safeSetItem s k v =
      (true, { s with store := storeSet s.store k v,
                      attempts := s.attempts + 1 }) := by
  simp [safeSetItem, setItem, h]

theorem quotaCleanupStep_state (acc : Nat × LS) (k : String) :
    ∃ st, (quotaCleanupStep acc k).2 = { acc.2 with store := st } ∧
      ∀ k', k' ≠ k →
        lsGet (quotaCleanupStep acc k).2 k' = lsGet acc.2 k' := by
  unfold quotaCleanupStep
  cases h : safeGetItem acc.2 k with
  | none => exact ⟨acc.2.store, rfl, fun k' _ => rfl⟩
  | some v =>
    by_cases hv : v.truthy
    · refine ⟨storeRemove acc.2.store k, by simp [hv, safeRemoveItem], ?_⟩
      intro k' hk
      simp only [hv, if_true, safeRemoveItem]
      exact listGet_storeRemove_other _ _ _ hk
    · exact ⟨acc.2.store, by simp [hv], fun k' _ => by simp [hv]⟩

theorem quotaFold_state :
    ∀ (ks : List String) (acc : Nat × LS),
      (∃ st, (ks.foldl quotaCleanupStep acc).2 = { acc.2 with store := st }) ∧
      ∀ k', k' ∉ ks →
        lsGet (ks.foldl quotaCleanupStep acc).2 k' = lsGet acc.2 k'
  | [], acc => ⟨⟨acc.2.store, rfl⟩, fun _ _ => rfl⟩
  | k :: ks, acc => by
    obtain ⟨st₁, hst₁, hframe₁⟩ := quotaCleanupStep_state acc k
    obtain ⟨⟨st₂, hst₂⟩, hframe₂⟩ := quotaFold_state ks (quotaCleanupStep acc k)
    constructor
    · exact ⟨st₂, by rw [List.foldl_cons, hst₂, hst₁]⟩
    · intro k' hk
      rw [List.mem_cons, not_or] at hk
      rw [List.foldl_cons, hframe₂ k' hk.2, hframe₁ k' hk.1]

theorem clearLastOpened_state (s : LS) :
    (clearLastOpened s).2 =
      { s with store := storeRemove (storeRemove s.store LAST_OPENED_KEY)
                          LAST_OPENED_DATA_KEY } := rfl

theorem handleQuotaExceeded_state (s : LS) :
    (∃ st n, handleQuotaExceeded s =
      { s with store := st,
               events := s.events ++
                 [{ message :=
                      "Storage quota exceeded. Please manage your diagrams."
                    freedSpace := n
                    recoveryAttempted := true }] }) ∧
    ∀ k', k' ∉ lowPriorityKeys →
      lsGet (handleQuotaExceeded s) k' = lsGet s k' := by
  obtain ⟨⟨st₁, hst₁⟩, hframe₁⟩ := quotaFold_state tempKeys (0, s)
  have hout : ∀ k', k' ∉ lowPriorityKeys →
      lsGet (handleQuotaExceeded s) k' = lsGet s k' := by
    intro k' hk
    rw [lowPriorityKeys, List.mem_append, not_or] at hk
    have hk₁ : k' ∉ tempKeys := hk.1
    have hk₂ : k' ≠ LAST_OPENED_KEY := by
      intro hke; exact hk.2 (by rw [hke]; exact List.mem_cons_self _ _)
    have hk₃ : k' ≠ LAST_OPENED_DATA_KEY := by
      intro hke
      exact hk.2 (by rw [hke]; exact List.mem_cons_of_mem _ (List.mem_cons_self _ _))
    unfold handleQuotaExceeded
    by_cases hfree : (tempKeys.foldl quotaCleanupStep (0, s)).1 < 100 * 1024
    · simp only [hfree, if_true]
      show listGet (storeRemove (storeRemove _ _) _) k' = _
      rw [listGet_storeRemove_other _ _ _ hk₃, listGet_storeRemove_other _ _ _ hk₂]
      exact hframe₁ k' hk₁
    · simp only [hfree, if_false]
      exact hframe₁ k' hk₁
  refine ⟨?_, hout⟩
  unfold handleQuotaExceeded
  by_cases hfree : (tempKeys.foldl quotaCleanupStep (0, s)).1 < 100 * 1024
  · refine ⟨storeRemove (storeRemove st₁ LAST_OPENED_KEY) LAST_OPENED_DATA_KEY,
      (tempKeys.foldl quotaCleanupStep (0, s)).1, ?_⟩
    simp only [hfree, if_true, clearLastOpened_state, hst₁]
  · exact ⟨st₁, (tempKeys.foldl quotaCleanupStep (0, s)).1, by
      simp only [hfree, if_false, hst₁]⟩

/-! ## Claim C1 -/

/-- C1 (counterexample).  The claim says a `set` failing with
capacity-exhaustion is retried exactly once after cleanup, i.e. two raw
`setItem` attempts happen.  On a state whose next `setItem` reports
`QuotaExceededError`, `safeSetItem` makes exactly one attempt — the cleanup
runs but the original `set` is never retried. -/
theorem C1_retry_counterexample :
    ¬ ((safeSetItem exQuotaLS DIAGRAMS_KEY (Raw.plain "v")).2.attempts =
        exQuotaLS.attempts + 2) := by decide

/-- C1 (amended).  Whenever a raw `setItem` fails with capacity-exhaustion,
`safeSetItem` performs exactly one cleanup pass that removes only keys from
the fixed low-priority list (`saga3d-temp-data`, `saga3d-backup-data`,
`saga3d-cache-data`, and the two last-opened keys), emits exactly one
`storage-quota-exceeded` event with `recoveryAttempted: true`, and does
*not* retry: the write returns `false` after exactly one raw attempt. -/
theorem C1_quota_cleanup_no_retry (s : LS) (k : String) (v : Raw)
    (h : s.faults.headD .ok = .quota) :
    (safeSetItem s k v).1 = false ∧
    (safeSetItem s k v).2.attempts = s.attempts + 1 ∧
    (∀ k', k' ∉ lowPriorityKeys →
      lsGet (safeSetItem s k v).2 k' = lsGet s k') ∧
    ∃ n, (safeSetItem s k v).2.events = s.events ++
      [{ message := "Storage quota exceeded. Please manage your diagrams."
         freedSpace := n
         recoveryAttempted := true }] := by
  have hset : setItem s k v =
      (.quota, { s with attempts := s.attempts + 1,
                        faults := s.faults.tail }) := by
    unfold setItem; rw [h]
  have hsafe : safeSetItem s k v =
      (false, handleQuotaExceeded
        { s with attempts := s.attempts + 1, faults := s.faults.tail }) := by
    unfold safeSetItem; rw [hset]
  obtain ⟨⟨st, n, hst⟩, hframe⟩ := handleQuotaExceeded_state
    { s with attempts := s.attempts + 1, faults := s.faults.tail }
  rw [hsafe]
  refine ⟨rfl, ?_, ?_, ?_⟩
  · rw [hst]
  · intro k' hk
    exact (hframe k' hk).trans rfl
  · exact ⟨n, by rw [hst]⟩

/-- C1 (witness): the amended theorem applied to a concrete quota-faulted
state — the write fails after one attempt, and a foreign key survives the
cleanup untouched. -/
theorem C1_quota_cleanup_no_retry_witness :
    (safeSetItem exQuotaLS DIAGRAMS_KEY (Raw.plain "v")).1 = false ∧
    (safeSetItem exQuotaLS DIAGRAMS_KEY (Raw.plain "v")).2.attempts =
      exQuotaLS.attempts + 1 ∧
    lsGet (safeSetItem exQuotaLS DIAGRAMS_KEY (Raw.plain "v")).2 "user-key" =
      lsGet exQuotaLS "user-key" :=
  ⟨(C1_quota_cleanup_no_retry exQuotaLS DIAGRAMS_KEY (Raw.plain "v")
      (by decide)).1,
   (C1_quota_cleanup_no_retry exQuotaLS DIAGRAMS_KEY (Raw.plain "v")
      (by decide)).2.1,
   (C1_quota_cleanup_no_retry exQuotaLS DIAGRAMS_KEY (Raw.plain "v")
      (by decide)).2.2.1 "user-key" (by decide)⟩

/-! ## Claim C4 -/

/-- C4 (counterexample).  The claim says every raw value that is not valid
JSON leads to the corrupted primary key being cleared.  When the stored raw
value is the empty string — which is not valid JSON — `loadDiagrams`
returns `[]` but leaves the key in place: the source treats a falsy string
like absence. -/
theorem C4_empty_string_counterexample :
    ¬ (lsGet (loadDiagrams exEmptyStrLS).2 DIAGRAMS_KEY = none) := by decide

/-- C4 (amended).  `loadDiagrams` is total and never throws across its
boundary.  An absent raw value yields the empty collection with the state
untouched; so does a stored empty string (treated as "no data yet"); every
*non-empty* raw value that does not parse as JSON yields the empty
collection and exactly the removal of the corrupted primary key. -/
theorem C4_decode_never_throws :
    (∀ s : LS, lsGet s DIAGRAMS_KEY = none → loadDiagrams s = ([], s)) ∧
    (∀ s : LS, lsGet s DIAGRAMS_KEY = some (Raw.plain "") →
      loadDiagrams s = ([], s)) ∧
    (∀ (s : LS) (t : String), t ≠ "" →
      lsGet s DIAGRAMS_KEY = some (Raw.plain t) →
      loadDiagrams s =
        ([], { s with store := storeRemove s.store DIAGRAMS_KEY })) := by
  refine ⟨?_, ?_, ?_⟩
  · intro s h
    unfold loadDiagrams safeGetItem
    rw [h]
  · intro s h
    unfold loadDiagrams safeGetItem
    rw [h]
    rfl
  · intro s t ht h
    unfold loadDiagrams safeGetItem
    rw [h]
    simp [Raw.truthy, ht, safeRemoveItem]

/-- C4 (witness): the three cases at concrete stores — an empty store, the
empty-string store, and a store holding `"not-json"`. -/
theorem C4_decode_never_throws_witness :
    loadDiagrams baseLS = ([], baseLS) ∧
    loadDiagrams exEmptyStrLS = ([], exEmptyStrLS) ∧
    loadDiagrams { baseLS with
        store := [(DIAGRAMS_KEY, Raw.plain "not-json")] } =
      ([], { baseLS with store := [] }) :=
  ⟨C4_decode_never_throws.1 baseLS (by decide),
   C4_decode_never_throws.2.1 exEmptyStrLS (by decide),
   by
     have h := C4_decode_never_throws.2.2
       { baseLS with store := [(DIAGRAMS_KEY, Raw.plain "not-json")] }
       "not-json" (by decide) (by decide)
     simpa using h⟩

/-! ## Claim C6 -/

/-- C6 (counterexample).  The claim says an invalid snapshot — in
particular one whose `formatVersion` is not `"1.0"` — yields a
`RestoreError` with storage untouched.  `restoreFromBackup` never examines
the version: a snapshot carrying `version: "2.0"` with a well-formed
diagrams array is accepted, reported as success, and the existing store is
cleared. -/
theorem C6_version_not_validated_counterexample :
    ¬ ((restoreFromBackup exMixedLS (Raw.json exVersion20Backup)).1.success
        = false ∧
       (restoreFromBackup exMixedLS (Raw.json exVersion20Backup)).2 =
        exMixedLS) := by decide

/-- C6 (amended).  `restoreFromBackup` rejects exactly the snapshots that
are unparseable or whose `data` is falsy or whose `data.diagrams` is not an
array; for those it returns a failure result with `restoredCount` 0 and
leaves the entire state — in particular every storage key — unchanged.
`formatVersion` is not validated, and entry-level document validity is
enforced later by filtering during the rewrite rather than by rejection. -/
theorem C6_invalid_shape_rejected (s : LS) (r : Raw)
    (h : backupShapeInvalid r = true) :
    (restoreFromBackup s r).1.success = false ∧
    (restoreFromBackup s r).1.restoredCount = 0 ∧
    (restoreFromBackup s r).2 = s := by
  cases r with
  | plain t => exact ⟨rfl, rfl, rfl⟩
  | json b =>
    have h' : (!(jsTruthy (b.getField "data") &&
        jsIsArr (((b.getField "data").getD Json.null).getField "diagrams")))
        = true := h
    simp only [restoreFromBackup]
    rw [if_pos h']
    exact ⟨rfl, rfl, rfl⟩

/-- C6 (witness): a malformed snapshot (`data.diagrams` is an object, not
an array) is rejected and the mixed store is left byte-for-byte intact. -/
theorem C6_invalid_shape_rejected_witness :
    (restoreFromBackup exMixedLS
      (Raw.json (.obj [("data", .obj [("diagrams", .obj [])])]))).1.success
      = false ∧
    (restoreFromBackup exMixedLS
      (Raw.json (.obj [("data", .obj [("diagrams", .obj [])])]))).2 =
      exMixedLS :=
  ⟨(C6_invalid_shape_rejected exMixedLS
      (Raw.json (.obj [("data", .obj [("diagrams", .obj [])])]))
      (by decide)).1,
   (C6_invalid_shape_rejected exMixedLS
      (Raw.json (.obj [("data", .obj [("diagrams", .obj [])])]))
      (by decide)).2.2⟩

/-! ## Claim C9 -/

theorem map_replace_id (l : List SavedDiagram) (nd : SavedDiagram)
    (h : ∀ x ∈ l, x.id ≠ nd.id) :
    l.map (fun x => if x.id = nd.id then nd else x) = l := by
  induction l with
  | nil => rfl
  | cons a l ih =>
    simp only [List.map_cons, if_neg (h a (List.mem_cons_self a l))]
    rw [ih (fun x hx => h x (List.mem_cons_of_mem a hx))]

theorem map_replace_append (pre post : List SavedDiagram)
    (d nd : SavedDiagram) (hd : d.id = nd.id)
    (hpre : ∀ x ∈ pre, x.id ≠ nd.id) (hpost : ∀ x ∈ post, x.id ≠ nd.id) :
    (pre ++ d :: post).map (fun x => if x.id = nd.id then nd else x) =
      pre ++ nd :: post := by
  induction pre with
  | nil =>
    simp only [List.nil_append, List.map_cons, if_pos hd]
    rw [map_replace_id post nd hpost]
  | cons a pre ih =>
    simp only [List.cons_append, List.map_cons,
      if_neg (hpre a (List.mem_cons_self a pre))]
    rw [ih (fun x hx => hpre x (List.mem_cons_of_mem a hx))]

theorem map_id_of_replace (ds : List SavedDiagram) (nd : SavedDiagram)
    (i : String) (hi : nd.id = i) :
    (ds.map (fun x => if x.id = i then nd else x)).map (fun x => x.id) =
      ds.map (fun x => x.id) := by
  rw [List.map_map]
  refine List.map_congr_left ?_
  intro x _
  by_cases hx : x.id = i
  · simp [Function.comp, hx, hi]
  · simp [Function.comp, hx]

/-- C9.  Saving a document whose `id` already exists in the collection
replaces that entry in place rather than appending — both in the
`DiagramContext` reducer (`findIndex` + `UPDATE_SAVED_DIAGRAM`) and in the
`useDiagramState` hook (map over the open diagram's id) — so the
collection's length is unchanged; and `id` uniqueness is preserved by every
save (both branches of the context reducer, and the update branch of the
hook). -/
theorem C9_overwrite_in_place :
    (∀ (pre post : List SavedDiagram) (d nd : SavedDiagram),
      d.id = nd.id →
      (∀ x ∈ pre, x.id ≠ nd.id) → (∀ x ∈ post, x.id ≠ nd.id) →
      saveDiagramCtx (pre ++ d :: post) nd = pre ++ nd :: post ∧
      (saveDiagramCtx (pre ++ d :: post) nd).length =
        (pre ++ d :: post).length ∧
      saveDiagramHook (pre ++ d :: post) (some d) nd = pre ++ nd :: post) ∧
    (∀ (ds : List SavedDiagram) (nd : SavedDiagram),
      (ds.map (fun x => x.id)).Nodup →
      ((saveDiagramCtx ds nd).map (fun x => x.id)).Nodup) ∧
    (∀ (ds : List SavedDiagram) (cd nd : SavedDiagram),
      nd.id = cd.id → (ds.map (fun x => x.id)).Nodup →
      ((saveDiagramHook ds (some cd) nd).map (fun x => x.id)).Nodup) := by
  refine ⟨?_, ?_, ?_⟩
  · intro pre post d nd hd hpre hpost
    have hmem : (pre ++ d :: post).any (fun x => x.id = nd.id) = true := by
      rw [List.any_eq_true]
      exact ⟨d, by simp, by simp [hd]⟩
    have hctx : saveDiagramCtx (pre ++ d :: post) nd = pre ++ nd :: post := by
      unfold saveDiagramCtx
      rw [if_pos hmem]
      exact map_replace_append pre post d nd hd hpre hpost
    refine ⟨hctx, by rw [hctx]; simp, ?_⟩
    have hfun : (fun x : SavedDiagram => if x.id = d.id then nd else x) =
        (fun x : SavedDiagram => if x.id = nd.id then nd else x) := by
      funext x; rw [hd]
    show (pre ++ d :: post).map
      (fun x => if x.id = d.id then nd else x) = pre ++ nd :: post
    rw [hfun]
    exact map_replace_append pre post d nd hd hpre hpost
  · intro ds nd h
    unfold saveDiagramCtx
    by_cases hmem : ds.any (fun x => x.id = nd.id)
    · rw [if_pos hmem, map_id_of_replace ds nd nd.id rfl]
      exact h
    · rw [if_neg hmem, List.map_append]
      rw [List.nodup_append]
      refine ⟨h, List.nodup_singleton _, ?_⟩
      intro i hi hmem'
      simp only [List.map_cons, List.map_nil, List.mem_singleton] at hmem'
      rw [List.mem_map] at hi
      obtain ⟨x, hx, hxi⟩ := hi
      rw [List.any_eq_true] at hmem
      exact hmem ⟨x, hx, by simp [hxi, hmem']⟩
  · intro ds cd nd hid h
    unfold saveDiagramHook
    rw [map_id_of_replace ds nd cd.id hid]
    exact h

/-- C9 (witness): overwriting the single-element collection `[exDoc]` with
a renamed document under the same id replaces in place, keeps length 1, and
preserves id uniqueness. -/
theorem C9_overwrite_in_place_witness :
    saveDiagramCtx ([] ++ exDoc :: []) exDocV2 = [] ++ exDocV2 :: [] ∧
    (saveDiagramCtx ([] ++ exDoc :: []) exDocV2).length =
      ([] ++ exDoc :: []).length ∧
    ((saveDiagramCtx [exDoc] exDocV2).map (fun x => x.id)).Nodup ∧
    ((saveDiagramHook [exDoc] (some exDoc) exDocV2).map
      (fun x => x.id)).Nodup :=
  ⟨(C9_overwrite_in_place.1 [] [] exDoc exDocV2 (by decide)
      (by intro x hx; cases hx) (by intro x hx; cases hx)).1,
   (C9_overwrite_in_place.1 [] [] exDoc exDocV2 (by decide)
      (by intro x hx; cases hx) (by intro x hx; cases hx)).2.1,
   C9_overwrite_in_place.2.1 [exDoc] exDocV2 (by decide),
   C9_overwrite_in_place.2.2 [exDoc] exDoc exDocV2 (by decide) (by decide)⟩

/-! ## Codec lemmas -/

theorem sanitizeData_toJson (d : DiagramData) :
    sanitizeData d.toJson = d.normalize.toJson := by
  cases hv : d.version <;> cases hdsc : d.description <;>
    cases hf : d.fitToScreen <;> by_cases ht : d.title = "" <;>
      simp [sanitizeData, DiagramData.toJson, DiagramData.normalize,
        Json.getField, optField, arrOr, Json.truthy, jsOrUntitled, ht, hv,
        hdsc, hf, List.find?]

theorem entryValidLoad_toJson (sd : SavedDiagram) :
    entryValidLoad sd.toJson = true := by
  simp [entryValidLoad, SavedDiagram.toJson, DiagramData.toJson,
    Json.getField, List.find?, jsIsStr, jsTruthy, jsIsObjType, Json.truthy,
    Json.isStr, Json.isObjType]

theorem entryValidSave_toJson (sd : SavedDiagram) (h : sd.schemaValid) :
    entryValidSave sd.toJson = true := by
  obtain ⟨h1, h2⟩ := h
  simp [entryValidSave, SavedDiagram.toJson, DiagramData.toJson,
    Json.getField, List.find?, jsIsStr, jsTruthy, jsIsObjType, Json.truthy,
    Json.isStr, Json.isObjType, h1, h2]

theorem sanitizeEntry_toJson (sd : SavedDiagram) :
    sanitizeEntry sd.toJson = sd.normalize.toJson := by
  simp [sanitizeEntry, SavedDiagram.toJson, SavedDiagram.normalize,
    Json.getField, List.find?, optField, sanitizeData_toJson]

theorem saveDiagrams_all_valid (s : LS) (js : List Json)
    (hf : s.faults = []) (hv : ∀ j ∈ js, entryValidSave j = true) :
    saveDiagrams s js =
      (true, { s with
        store := storeSet s.store DIAGRAMS_KEY
          (Raw.json (.arr (js.map sanitizeEntry))),
        attempts := s.attempts + 1 }) := by
  unfold saveDiagrams
  rw [List.filter_eq_self.mpr hv]
  simp only [ne_eq, not_true_eq_false, if_false]
  exact safeSetItem_of_no_fault _ _ _ hf

theorem loadDiagrams_stored (s : LS) (es : List Json)
    (h : lsGet s DIAGRAMS_KEY = some (Raw.json (.arr es)))
    (hv : ∀ e ∈ es, entryValidLoad e = true) :
    loadDiagrams s = (es, s) := by
  have hfil : List.filter entryValidLoad es = es := List.filter_eq_self.mpr hv
  unfold loadDiagrams safeGetItem
  rw [h]
  simp [Raw.truthy, hfil]

/-! ## Claim C2 -/

/-- C2 (counterexample).  The claim says the decode of the encode differs
from the input only in each payload's `icons` field.  A schema-valid
document whose (empty) `title` the encoder rewrites to `'Untitled'` comes
back different even after emptying `icons`. -/
theorem C2_icons_only_counterexample :
    ¬ ((loadDiagrams (saveDiagrams baseLS
          ([exDocEmptyTitle].map SavedDiagram.toJson)).2).1 =
        [exDocEmptyTitle].map (fun d => d.stripIcons.toJson)) := by decide

/-- C2 (amended).  For every collection of schema-valid documents
(non-empty `id` and `name`; the payload array fields are arrays by typing)
and any fault-free state, `loadDiagrams` after `saveDiagrams` returns the
collection unchanged except that each payload's `icons` field is the empty
array and a falsy (empty) `title` is replaced by `'Untitled'`. -/
theorem C2_roundtrip_normalizes (s : LS) (c : List SavedDiagram)
    (hf : s.faults = []) (hv : ∀ d ∈ c, d.schemaValid) :
    (loadDiagrams (saveDiagrams s (c.map SavedDiagram.toJson)).2).1 =
      c.map (fun d => d.normalize.toJson) := by
  have hval : ∀ j ∈ c.map SavedDiagram.toJson, entryValidSave j = true := by
    intro j hj
    rw [List.mem_map] at hj
    obtain ⟨d, hd, rfl⟩ := hj
    exact entryValidSave_toJson d (hv d hd)
  have hmap : (c.map SavedDiagram.toJson).map sanitizeEntry =
      c.map (fun d => d.normalize.toJson) := by
    rw [List.map_map]
    exact List.map_congr_left (fun d _ => sanitizeEntry_toJson d)
  have hget : lsGet
      { s with store :=
                 storeSet s.store DIAGRAMS_KEY
                   (Raw.json (.arr (c.map (fun d => d.normalize.toJson)))),
               attempts := s.attempts + 1 } DIAGRAMS_KEY =
      some (Raw.json (.arr (c.map (fun d => d.normalize.toJson)))) :=
    listGet_storeSet_self _ _ _
  have hval2 : ∀ e ∈ c.map (fun d => d.normalize.toJson),
      entryValidLoad e = true := by
    intro e he
    rw [List.mem_map] at he
    obtain ⟨d, _, rfl⟩ := he
    exact entryValidLoad_toJson d.normalize
  rw [saveDiagrams_all_valid s _ hf hval, hmap,
    loadDiagrams_stored _ (c.map (fun d => d.normalize.toJson)) hget hval2]

/-- C2 (witness): the round trip at the one-document collection `[exDoc]`
over the empty fault-free store. -/
theorem C2_roundtrip_normalizes_witness :
    (loadDiagrams (saveDiagrams baseLS
        ([exDoc].map SavedDiagram.toJson)).2).1 =
      [exDoc].map (fun d => d.normalize.toJson) :=
  C2_roundtrip_normalizes baseLS [exDoc] (by decide) (by decide)

/-! ## Claim C8 -/

/-- C8 (counterexample).  The claim says decoding reports `droppedCount: 1`
to the caller.  `loadDiagrams` returns only the documents array: decoding
the three-entry store (one entry dropped) and decoding the store holding
just the two valid entries (nothing dropped) hand the caller identical
values, so no dropped count reaches the caller — the count `1` exists only
in the `"Filtered out 1 invalid diagrams"` console warning. -/
theorem C8_count_not_returned_counterexample :
    (loadDiagrams exThreeLS).1 = (loadDiagrams exTwoValidLS).1 ∧
    (loadDiagrams exThreeLS).2.droppedWarns = [1] ∧
    (loadDiagrams exTwoValidLS).2.droppedWarns = [] := by decide

/-- C8 (amended).  For every stored collection of three entries of which
exactly one lacks the `name` field (the other two being schema-valid),
decoding returns exactly the two valid documents in order — the invalid
entry is silently dropped, no exception can occur (total function).  The
returned value carries only the documents; the dropped count `1` is
reported via the `"Filtered out n invalid diagrams"` console warning, not
to the caller. -/
theorem C8_drop_invalid_entry (s : LS) (p q : List Json) (w : Json)
    (hf : s.faults = [])
    (h : lsGet s DIAGRAMS_KEY = some (Raw.json (.arr (p ++ w :: q))))
    (hlen : p.length + q.length = 2)
    (hv : ∀ e ∈ p ++ q, entryValidLoad e = true ∧ entryValidSave e = true)
    (hw : w.getField "name" = none) :
    (loadDiagrams s).1 = p ++ q ∧
    (loadDiagrams s).2.droppedWarns = s.droppedWarns ++ [1] := by
  have hwv : entryValidLoad w = false := by
    simp [entryValidLoad, hw, jsIsStr]
  have hfil : List.filter entryValidLoad (p ++ w :: q) = p ++ q := by
    rw [List.filter_append, List.filter_cons]
    rw [List.filter_eq_self.mpr
      (fun e he => (hv e (List.mem_append_left _ he)).1)]
    rw [List.filter_eq_self.mpr
      (fun e he => (hv e (List.mem_append_right _ he)).1)]
    simp [hwv]
  have hlen3 : (p ++ w :: q).length = 3 := by
    simp only [List.length_append, List.length_cons]
    omega
  have hlen2 : (p ++ q).length = 2 := by
    simp only [List.length_append]
    omega
  have hsd := saveDiagrams_all_valid
    { s with droppedWarns := s.droppedWarns ++ [1] } (p ++ q)
    (by simpa using hf) (fun e he => (hv e he).2)
  unfold loadDiagrams safeGetItem
  rw [h]
  simp only [Raw.truthy, Bool.not_true, hfil, hlen3, hlen2]
  norm_num
  rw [hsd]

/-- C8 (witness): the three-entry store whose middle entry lacks `name`
decodes to the two valid documents and logs a dropped count of `1`. -/
theorem C8_drop_invalid_entry_witness :
    (loadDiagrams exThreeLS).1 =
      [exDoc.normalize.toJson] ++ [exDocV2.normalize.toJson] ∧
    (loadDiagrams exThreeLS).2.droppedWarns =
      exThreeLS.droppedWarns ++ [1] :=
  C8_drop_invalid_entry exThreeLS [exDoc.normalize.toJson]
    [exDocV2.normalize.toJson] exNoNameEntry (by decide) (by decide)
    (by decide) (by decide) (by decide)

/-! ## Last-opened lemmas -/

theorem arrOr_isArr (x : Option Json) : jsIsArr (some (arrOr x)) = true := by
  unfold arrOr
  split
  · rfl
  · rfl

theorem validateData_fields (d : Json) :
    (validateData d).truthy = true ∧
    jsIsArr ((validateData d).getField "icons") = true ∧
    jsIsArr ((validateData d).getField "colors") = true ∧
    jsIsArr ((validateData d).getField "items") = true ∧
    jsIsArr ((validateData d).getField "views") = true := by
  cases hv : d.getField "version" <;> cases hdsc : d.getField "description" <;>
    cases hf : d.getField "fitToScreen" <;>
      simp only [validateData, hv, hdsc, hf, optField] <;>
      simp [Json.getField, List.find?, Json.truthy, arrOr_isArr]

/-! ## Claim C10 -/

/-- C10 (counterexample).  The claim says the last-opened keys are cleared
whenever their contents are present but corrupted or unparseable.  With a
stored empty-string id and a present, unparseable data value, the source
returns `null` through the `!id` guard without clearing either key. -/
theorem C10_empty_id_counterexample :
    (loadLastOpened exEmptyIdLS).1 = none ∧
    corruptData (Raw.plain "not-json") = true ∧
    ¬ (lsGet (loadLastOpened exEmptyIdLS).2 LAST_OPENED_DATA_KEY = none) := by
  decide

/-- Total case analysis of `loadLastOpened`: absent/empty values leave the
state untouched and yield `null`; corrupted data clears both keys; valid
data yields the validated record. -/
theorem loadLastOpened_cases (s : LS) :
    ((presentTruthy s LAST_OPENED_KEY = false ∨
      presentTruthy s LAST_OPENED_DATA_KEY = false) ∧
     loadLastOpened s = (none, s)) ∨
    (∃ idr datar, lsGet s LAST_OPENED_KEY = some idr ∧
      lsGet s LAST_OPENED_DATA_KEY = some datar ∧ idr.truthy = true ∧
      datar.truthy = true ∧ corruptData datar = true ∧
      loadLastOpened s = (none, (clearLastOpened s).2)) ∨
    (∃ idr d, lsGet s LAST_OPENED_KEY = some idr ∧
      lsGet s LAST_OPENED_DATA_KEY = some (Raw.json d) ∧
      idr.truthy = true ∧ (d.truthy && d.isObjType) = true ∧
      loadLastOpened s = (some (idr, validateData d), s) ∧
      jsIsArr ((validateData d).getField "icons") = true ∧
      jsIsArr ((validateData d).getField "colors") = true ∧
      jsIsArr ((validateData d).getField "items") = true ∧
      jsIsArr ((validateData d).getField "views") = true) := by
  cases h1 : lsGet s LAST_OPENED_KEY with
  | none =>
    refine Or.inl ⟨Or.inl (by simp [presentTruthy, h1]), ?_⟩
    unfold loadLastOpened safeGetItem
    rw [h1]
  | some idr =>
    cases h2 : lsGet s LAST_OPENED_DATA_KEY with
    | none =>
      refine Or.inl ⟨Or.inr (by simp [presentTruthy, h2]), ?_⟩
      unfold loadLastOpened safeGetItem
      rw [h1, h2]
    | some datar =>
      by_cases ht1 : idr.truthy
      · by_cases ht2 : datar.truthy
        · cases datar with
          | plain t =>
            refine Or.inr (Or.inl ⟨idr, Raw.plain t, rfl, rfl, ht1, ht2,
              rfl, ?_⟩)
            unfold loadLastOpened safeGetItem
            rw [h1, h2]
            simp [ht1, ht2]
          | json d =>
            by_cases hobj : (d.truthy && d.isObjType) = true
            · have htd : (Raw.json d).truthy = true := rfl
              refine Or.inr (Or.inr ⟨idr, d, rfl, rfl, ht1, hobj, ?_,
                (validateData_fields d).2.1, (validateData_fields d).2.2.1,
                (validateData_fields d).2.2.2.1,
                (validateData_fields d).2.2.2.2⟩)
              unfold loadLastOpened safeGetItem
              rw [h1, h2]
              simp [ht1, htd, hobj]
            · have hfalse : (d.truthy && d.isObjType) = false :=
                Bool.eq_false_iff.mpr hobj
              have htd : (Raw.json d).truthy = true := rfl
              refine Or.inr (Or.inl ⟨idr, Raw.json d, rfl, rfl, ht1, ht2,
                ?_, ?_⟩)
              · show (!(d.truthy && d.isObjType)) = true
                rw [hfalse]
                rfl
              · unfold loadLastOpened safeGetItem
                rw [h1, h2]
                simp [ht1, htd, hfalse]
        · refine Or.inl ⟨Or.inr (by simp [presentTruthy, h2]; simpa using ht2),
            ?_⟩
          unfold loadLastOpened safeGetItem
          rw [h1, h2]
          simp [ht2]
      · refine Or.inl ⟨Or.inl (by simp [presentTruthy, h1]; simpa using ht1),
          ?_⟩
        unfold loadLastOpened safeGetItem
        rw [h1, h2]
        simp [ht1]

/-- C10 (amended).  `loadLastOpened` never returns a malformed record: for
every backend state it either returns `null` — leaving the store untouched
when either stored value is missing or empty, and clearing both last-opened
keys when both values are non-empty but the data value is corrupted or
unparseable — or returns a record whose id is a non-empty string and whose
validated data has `icons`, `colors`, `items` and `views` all arrays, any
missing or non-array stored field replaced by the empty array (the
`validateData` coercions). -/
theorem C10_lastOpened_never_malformed (s : LS) :
    ((presentTruthy s LAST_OPENED_KEY = false ∨
      presentTruthy s LAST_OPENED_DATA_KEY = false) ∧
     loadLastOpened s = (none, s)) ∨
    (∃ idr datar, lsGet s LAST_OPENED_KEY = some idr ∧
      lsGet s LAST_OPENED_DATA_KEY = some datar ∧ idr.truthy = true ∧
      datar.truthy = true ∧ corruptData datar = true ∧
      loadLastOpened s = (none, (clearLastOpened s).2)) ∨
    (∃ idr d, lsGet s LAST_OPENED_KEY = some idr ∧
      lsGet s LAST_OPENED_DATA_KEY = some (Raw.json d) ∧
      idr.truthy = true ∧ (d.truthy && d.isObjType) = true ∧
      loadLastOpened s = (some (idr, validateData d), s) ∧
      jsIsArr ((validateData d).getField "icons") = true ∧
      jsIsArr ((validateData d).getField "colors") = true ∧
      jsIsArr ((validateData d).getField "items") = true ∧
      jsIsArr ((validateData d).getField "views") = true) :=
  loadLastOpened_cases s

/-! ## Integrity-check lemmas -/


theorem jsOrUntitled_truthy (x : Option Json) :
    (jsOrUntitled x).truthy = true := by
  cases x with
  | none => rfl
  | some t =>
    simp only [jsOrUntitled]
    by_cases htt : t.truthy = true
    · rw [if_pos htt]
      exact htt
    · rw [if_neg htt]
      simp [Json.truthy]

theorem isObj_of_getField (e : Json) (k : String) (v : Json)
    (h : e.getField k = some v) : e.isObjType = true ∧ e.truthy = true := by
  cases e <;>
    simp [Json.getField, Json.isObjType, Json.truthy] at h ⊢

theorem integrityIssues_empty_iff (e : Json) :
    (integrityIssues e).isEmpty = true ↔
      jsTruthy (e.getField "id") = true ∧
      jsTruthy (e.getField "name") = true ∧
      jsTruthy (e.getField "data") = true ∧
      jsTruthy (((e.getField "data").getD .null).getField "title") = true ∧
      jsIsArr (((e.getField "data").getD .null).getField "items") = true ∧
      jsIsArr (((e.getField "data").getD .null).getField "views") = true ∧
      jsIsArr (((e.getField "data").getD .null).getField "colors") = true := by
  unfold integrityIssues
  by_cases h1 : jsTruthy (e.getField "id") <;>
    by_cases h2 : jsTruthy (e.getField "name") <;>
      by_cases h3 : jsTruthy (e.getField "data") <;>
        simp [h1, h2, h3, List.isEmpty_iff, apply_ite List.isEmpty]

theorem sanitizeData_fields (d : Json) :
    (sanitizeData d).truthy = true ∧ (sanitizeData d).isObjType = true ∧
    jsTruthy ((sanitizeData d).getField "title") = true ∧
    jsIsArr ((sanitizeData d).getField "items") = true ∧
    jsIsArr ((sanitizeData d).getField "views") = true ∧
    jsIsArr ((sanitizeData d).getField "colors") = true := by
  cases hv : d.getField "version" <;> cases hdsc : d.getField "description" <;>
    cases hf : d.getField "fitToScreen" <;>
      simp only [sanitizeData, hv, hdsc, hf, optField] <;>
      refine ⟨rfl, rfl, ?_, ?_, ?_, ?_⟩ <;>
      simp [Json.getField, List.find?, jsTruthy, jsOrUntitled_truthy,
        arrOr_isArr]

theorem sanitizeEntry_getFields (e : Json) :
    (sanitizeEntry e).getField "id" = some ((e.getField "id").getD .null) ∧
    (sanitizeEntry e).getField "name" =
      some ((e.getField "name").getD .null) ∧
    (sanitizeEntry e).getField "data" =
      some (sanitizeData ((e.getField "data").getD .null)) := by
  cases hc : e.getField "createdAt" <;> cases hu : e.getField "updatedAt" <;>
    simp only [sanitizeEntry, hc, hu, optField] <;>
    simp [Json.getField, List.find?]

theorem entryValidLoad_parts (e : Json) (h : entryValidLoad e = true) :
    e.truthy = true ∧
    jsIsStr (e.getField "id") = true ∧ jsIsStr (e.getField "name") = true ∧
    jsTruthy (e.getField "data") = true ∧
    jsIsObjType (e.getField "data") = true := by
  simp only [entryValidLoad, Bool.and_eq_true] at h
  exact ⟨h.1.1.1.1, h.1.1.1.2, h.1.1.2, h.1.2, h.2⟩

theorem entryValidSave_of_clean (e : Json)
    (hl : entryValidLoad e = true)
    (hi : (integrityIssues e).isEmpty = true) :
    entryValidSave e = true := by
  obtain ⟨het, hid, hname, hdt, hdo⟩ := entryValidLoad_parts e hl
  obtain ⟨h1, h2, h3, _, _, _, _⟩ := (integrityIssues_empty_iff e).mp hi
  have hobj : e.isObjType = true := by
    cases hg : e.getField "id" with
    | none => rw [hg] at hid; simp [jsIsStr] at hid
    | some v => exact (isObj_of_getField e "id" v hg).1
  simp [entryValidSave, het, hobj, h1, h2, h3, hid, hname, hdt, hdo]

theorem cleanEntry_sanitizeEntry (e : Json) (h : cleanEntry e = true) :
    cleanEntry (sanitizeEntry e) = true := by
  rw [cleanEntry, Bool.and_eq_true] at h
  obtain ⟨hl, hi⟩ := h
  obtain ⟨het, hid, hname, hdt, hdo⟩ := entryValidLoad_parts e hl
  obtain ⟨h1, h2, h3, _, _, _, _⟩ := (integrityIssues_empty_iff e).mp hi
  obtain ⟨hgid, hgname, hgdata⟩ := sanitizeEntry_getFields e
  have hsd := sanitizeData_fields ((e.getField "data").getD .null)
  rw [cleanEntry, Bool.and_eq_true]
  constructor
  · simp only [entryValidLoad, hgid, hgname, hgdata, Bool.and_eq_true]
    refine ⟨⟨⟨⟨?_, ?_⟩, ?_⟩, by simpa [jsTruthy] using hsd.1⟩,
      by simpa [jsIsObjType] using hsd.2.1⟩
    · rfl
    · cases hg : e.getField "id" with
      | none => rw [hg] at hid; simp [jsIsStr] at hid
      | some v => rw [hg] at hid; simpa using hid
    · cases hg : e.getField "name" with
      | none => rw [hg] at hname; simp [jsIsStr] at hname
      | some v => rw [hg] at hname; simpa using hname
  · rw [integrityIssues_empty_iff, hgid, hgname, hgdata]
    refine ⟨?_, ?_, by simpa [jsTruthy] using hsd.1, ?_, ?_, ?_, ?_⟩
    · cases hg : e.getField "id" with
      | none => rw [hg] at h1; simp [jsTruthy] at h1
      | some v => rw [hg] at h1; simpa using h1
    · cases hg : e.getField "name" with
      | none => rw [hg] at h2; simp [jsTruthy] at h2
      | some v => rw [hg] at h2; simpa using h2
    · simpa using hsd.2.2.1
    · simpa using hsd.2.2.2.1
    · simpa using hsd.2.2.2.2.1
    · simpa using hsd.2.2.2.2.2



theorem cleanEntry_parts (e : Json) (h : cleanEntry e = true) :
    entryValidLoad e = true ∧ (integrityIssues e).isEmpty = true := by
  rw [cleanEntry, Bool.and_eq_true] at h
  exact h

theorem presentTruthy_false_clean (s : LS)
    (h : presentTruthy s LAST_OPENED_KEY = false ∨
         presentTruthy s LAST_OPENED_DATA_KEY = false) :
    lastOpenedClean s = true := by
  unfold presentTruthy at h
  unfold lastOpenedClean
  cases h1 : lsGet s LAST_OPENED_KEY with
  | none => rfl
  | some idr =>
    cases h2 : lsGet s LAST_OPENED_DATA_KEY with
    | none => rfl
    | some datar =>
      rw [h1, h2] at h
      rcases h with h | h
      · have h' : idr.truthy = false := by simpa using h
        simp [h']
      · have h' : datar.truthy = false := by simpa using h
        simp [h']

theorem clearLastOpened_lookups (s : LS) :
    lsGet (clearLastOpened s).2 LAST_OPENED_KEY = none ∧
    lsGet (clearLastOpened s).2 LAST_OPENED_DATA_KEY = none ∧
    (∀ k, k ≠ LAST_OPENED_KEY → k ≠ LAST_OPENED_DATA_KEY →
      lsGet (clearLastOpened s).2 k = lsGet s k) ∧
    (clearLastOpened s).2.faults = s.faults ∧
    (clearLastOpened s).2.droppedWarns = s.droppedWarns := by
  refine ⟨?_, ?_, ?_, rfl, rfl⟩
  · show listGet (storeRemove (storeRemove s.store LAST_OPENED_KEY)
      LAST_OPENED_DATA_KEY) LAST_OPENED_KEY = none
    rw [listGet_storeRemove_other _ _ _ (by decide)]
    exact listGet_storeRemove_self _ _
  · exact listGet_storeRemove_self _ _
  · intro k hk1 hk2
    show listGet (storeRemove (storeRemove s.store LAST_OPENED_KEY)
      LAST_OPENED_DATA_KEY) k = lsGet s k
    rw [listGet_storeRemove_other _ _ _ hk2,
      listGet_storeRemove_other _ _ _ hk1]
    rfl

theorem lastOpenedClean_after_load (s : LS) :
    lastOpenedClean (loadLastOpened s).2 = true := by
  rcases loadLastOpened_cases s with ⟨hp, h⟩ |
    ⟨idr, datar, h1, h2, ht1, ht2, hc, h⟩ |
    ⟨idr, d, h1, h2, ht1, hobj, h, _⟩
  · rw [h]
    exact presentTruthy_false_clean s hp
  · rw [h]
    unfold lastOpenedClean
    rw [(clearLastOpened_lookups s).1]
  · rw [h]
    unfold lastOpenedClean
    rw [h1, h2]
    simp [hobj]

theorem loadLastOpened_state_cases (s : LS) :
    (loadLastOpened s).2 = s ∨
    (loadLastOpened s).2 = (clearLastOpened s).2 := by
  rcases loadLastOpened_cases s with ⟨_, h⟩ |
    ⟨_, _, _, _, _, _, _, h⟩ | ⟨_, _, _, _, _, _, h, _⟩ <;>
    rw [h]
  · exact Or.inl rfl
  · exact Or.inr rfl
  · exact Or.inl rfl

theorem loadLastOpened_of_clean (s : LS) (hl : lastOpenedClean s = true) :
    (loadLastOpened s).2 = s ∧
    ((loadLastOpened s).1 = none ∨
     ∃ idr vd, (loadLastOpened s).1 = some (idr, vd) ∧
       idr.truthy = true ∧ vd.truthy = true) := by
  rcases loadLastOpened_cases s with ⟨hp, h⟩ |
    ⟨idr, datar, h1, h2, ht1, ht2, hc, h⟩ |
    ⟨idr, d, h1, h2, ht1, hobj, h, _⟩
  · rw [h]
    exact ⟨rfl, Or.inl rfl⟩
  · exfalso
    unfold lastOpenedClean at hl
    rw [h1, h2] at hl
    cases datar with
    | plain t => simp [ht1, ht2] at hl
    | json d =>
      have hc2 : (!(d.truthy && d.isObjType)) = true := hc
      have hc' : (d.truthy && d.isObjType) = false := by
        cases hx : (d.truthy && d.isObjType)
        · rfl
        · rw [hx] at hc2
          exact absurd hc2 (by decide)
      simp [ht1, ht2, hc'] at hl
  · rw [h]
    exact ⟨rfl, Or.inr ⟨idr, validateData d, rfl, ht1,
      (validateData_fields d).1⟩⟩

theorem loadDiagrams_absent (s : LS) (h : lsGet s DIAGRAMS_KEY = none) :
    loadDiagrams s = ([], s) := by
  unfold loadDiagrams safeGetItem
  rw [h]

theorem loadDiagrams_falsy (s : LS) (r : Raw)
    (h : lsGet s DIAGRAMS_KEY = some r) (ht : r.truthy = false) :
    loadDiagrams s = ([], s) := by
  unfold loadDiagrams safeGetItem
  rw [h]
  simp [ht]



theorem checkDataIntegrity_of_clean (s : LS)
    (hd : diagramsClean s = true) (hl : lastOpenedClean s = true) :
    checkDataIntegrity s =
      ({ isValid := true, issues := [], autoFixed := false }, s) := by
  unfold diagramsClean at hd
  obtain ⟨hst, hres⟩ := loadLastOpened_of_clean s hl
  cases h : lsGet s DIAGRAMS_KEY with
  | none =>
    unfold checkDataIntegrity
    rw [loadDiagrams_absent s h]
    simp
  | some r =>
    rw [h] at hd
    by_cases htr : r.truthy = true
    · cases r with
      | plain t => simp [htr] at hd
      | json j =>
        cases j with
        | arr es =>
          have hclean : ∀ e ∈ es, cleanEntry e = true := by
            simp only [htr, Bool.not_true, Bool.false_or] at hd
            simpa [List.all_eq_true] using hd
          have hld : loadDiagrams s = (es, s) :=
            loadDiagrams_stored s es h
              (fun e he => (cleanEntry_parts e (hclean e he)).1)
          have hfil : es.filter (fun d => (integrityIssues d).isEmpty) = es :=
            List.filter_eq_self.mpr
              (fun e he => (cleanEntry_parts e (hclean e he)).2)
          have hfil2 :
              es.filter (fun d => !(integrityIssues d).isEmpty) = [] :=
            List.filter_eq_nil_iff.mpr (fun e he => by
              simp [(cleanEntry_parts e (hclean e he)).2])
          unfold checkDataIntegrity
          rw [hld]
          by_cases hes : es.length = 0
          · simp [hes]
          · simp only [hes, if_false, hfil, hfil2, ne_eq,
              not_true_eq_false, Bool.false_and, List.map_nil]
            rcases hres with hnone | ⟨idr, vd, hsome, hti, htv⟩
            · simp [hnone, hst]
            · simp [hsome, hst, hti, htv]
        | null => simp [htr] at hd
        | bool b => simp [htr] at hd
        | num n => simp [htr] at hd
        | str t => simp [htr] at hd
        | obj fields => simp [htr] at hd
    · have htr' : r.truthy = false := by
        cases hx : r.truthy
        · rfl
        · exact absurd hx htr
      unfold checkDataIntegrity
      rw [loadDiagrams_falsy s r h htr']
      simp



theorem loadLastOpened_result_truthy (s : LS) (idr : Raw) (vd : Json)
    (h : (loadLastOpened s).1 = some (idr, vd)) :
    idr.truthy = true ∧ vd.truthy = true := by
  rcases loadLastOpened_cases s with ⟨_, he⟩ |
    ⟨_, _, _, _, _, _, _, he⟩ | ⟨idr', d, _, _, ht1, _, he, _⟩
  · rw [he] at h
    cases h
  · rw [he] at h
    cases h
  · rw [he] at h
    simp only [Option.some.injEq, Prod.mk.injEq] at h
    obtain ⟨h1, h2⟩ := h
    subst h1
    subst h2
    exact ⟨ht1, (validateData_fields d).1⟩

theorem checkDataIntegrity_arr_empty (s : LS)
    (h : lsGet s DIAGRAMS_KEY = some (Raw.json (.arr []))) :
    checkDataIntegrity s =
      ({ isValid := true, issues := [], autoFixed := false }, s) := by
  unfold checkDataIntegrity
  rw [loadDiagrams_stored s [] h (by intro e he; cases he)]
  simp

theorem checkDataIntegrity_post (s : LS) (es : List Json)
    (hf : s.faults = [])
    (h : lsGet s DIAGRAMS_KEY = some (Raw.json (.arr es)))
    (hv : ∀ e ∈ es, entryValidLoad e = true)
    (hne : ∃ e ∈ es, (integrityIssues e).isEmpty = true) :
    diagramsClean (checkDataIntegrity s).2 = true ∧
    lastOpenedClean (checkDataIntegrity s).2 = true := by
  have hld : loadDiagrams s = (es, s) := loadDiagrams_stored s es h hv
  have hes : es ≠ [] := by
    rintro rfl
    rcases hne with ⟨e, he, _⟩
    cases he
  have hlen0 : ¬ (es.length = 0) := by
    simpa [List.length_eq_zero] using hes
  by_cases hall :
      (es.filter (fun d => (integrityIssues d).isEmpty)).length = es.length
  · have hfil : es.filter (fun d => (integrityIssues d).isEmpty) = es :=
      List.filter_eq_self.mpr (List.filter_length_eq_length.mp hall)
    have hfinal : (checkDataIntegrity s).2 = (loadLastOpened s).2 := by
      unfold checkDataIntegrity
      rw [hld]
      simp only [hlen0, if_false, hfil, ne_eq, not_true_eq_false,
        Bool.false_and, decide_False, Bool.false_and]
      rcases hlo : (loadLastOpened s).1 with _ | ⟨idr, vd⟩
      · simp [hlo]
      · obtain ⟨hti, htv⟩ := loadLastOpened_result_truthy s idr vd hlo
        simp [hlo, hti, htv]
    have hallc : ∀ e ∈ es, cleanEntry e = true := fun e he => by
      rw [cleanEntry, Bool.and_eq_true]
      exact ⟨hv e he, List.filter_length_eq_length.mp hall e he⟩
    have hdg : lsGet (loadLastOpened s).2 DIAGRAMS_KEY =
        some (Raw.json (.arr es)) := by
      rcases loadLastOpened_state_cases s with hc | hc <;> rw [hc]
      · exact h
      · rw [(clearLastOpened_lookups s).2.2.1 DIAGRAMS_KEY (by decide)
          (by decide)]
        exact h
    constructor
    · rw [hfinal]
      unfold diagramsClean
      rw [hdg]
      have hb : es.all cleanEntry = true := List.all_eq_true.mpr hallc
      simp [Raw.truthy, hb]
    · rw [hfinal]
      exact lastOpenedClean_after_load s
  · have hvsub : ∀ e ∈ es.filter (fun d => (integrityIssues d).isEmpty),
        entryValidSave e = true := fun e he => by
      rw [List.mem_filter] at he
      exact entryValidSave_of_clean e (hv e he.1) (by simpa using he.2)
    have hpos : 0 < (es.filter (fun d => (integrityIssues d).isEmpty)).length := by
      rcases hne with ⟨e, he, hie⟩
      exact List.length_pos.mpr (List.ne_nil_of_mem
        (List.mem_filter.mpr ⟨he, by simpa using hie⟩))
    have hsd := saveDiagrams_all_valid s
      (es.filter (fun d => (integrityIssues d).isEmpty)) hf hvsub
    have hfix : (decide
        ((es.filter (fun d => (integrityIssues d).isEmpty)).length ≠
          es.length) &&
        decide ((es.filter (fun d => (integrityIssues d).isEmpty)).length > 0))
        = true := by
      simp [hall, hpos]
    have hfinal : (checkDataIntegrity s).2 =
        (loadLastOpened
          { s with
            store := storeSet s.store DIAGRAMS_KEY
              (Raw.json (.arr ((es.filter
                (fun d => (integrityIssues d).isEmpty)).map sanitizeEntry))),
            attempts := s.attempts + 1 }).2 := by
      unfold checkDataIntegrity
      rw [hld]
      simp only [hlen0, if_false, hfix, if_true, hsd]
      rcases hlo : (loadLastOpened
          { s with
            store := storeSet s.store DIAGRAMS_KEY
              (Raw.json (.arr ((es.filter
                (fun d => (integrityIssues d).isEmpty)).map sanitizeEntry))),
            attempts := s.attempts + 1 }).1 with _ | ⟨idr, vd⟩
      · simp [hlo]
      · obtain ⟨hti, htv⟩ := loadLastOpened_result_truthy _ idr vd hlo
        simp [hlo, hti, htv]
    have hallc : ∀ e ∈ (es.filter
        (fun d => (integrityIssues d).isEmpty)).map sanitizeEntry,
        cleanEntry e = true := fun e he => by
      rw [List.mem_map] at he
      obtain ⟨x, hx, rfl⟩ := he
      rw [List.mem_filter] at hx
      refine cleanEntry_sanitizeEntry x ?_
      rw [cleanEntry, Bool.and_eq_true]
      exact ⟨hv x hx.1, by simpa using hx.2⟩
    have hdg : lsGet (loadLastOpened
        { s with
          store := storeSet s.store DIAGRAMS_KEY
            (Raw.json (.arr ((es.filter
              (fun d => (integrityIssues d).isEmpty)).map sanitizeEntry))),
          attempts := s.attempts + 1 }).2 DIAGRAMS_KEY =
        some (Raw.json (.arr ((es.filter
          (fun d => (integrityIssues d).isEmpty)).map sanitizeEntry))) := by
      rcases loadLastOpened_state_cases
        { s with
          store := storeSet s.store DIAGRAMS_KEY
            (Raw.json (.arr ((es.filter
              (fun d => (integrityIssues d).isEmpty)).map sanitizeEntry))),
          attempts := s.attempts + 1 } with hc | hc <;> rw [hc]
      · exact listGet_storeSet_self _ _ _
      · rw [(clearLastOpened_lookups _).2.2.1 DIAGRAMS_KEY (by decide)
          (by decide)]
        exact listGet_storeSet_self _ _ _
    constructor
    · rw [hfinal]
      unfold diagramsClean
      rw [hdg]
      have hb : ((es.filter
          (fun d => (integrityIssues d).isEmpty)).map sanitizeEntry).all
          cleanEntry = true := List.all_eq_true.mpr hallc
      simp [Raw.truthy, hb]
    · rw [hfinal]
      exact lastOpenedClean_after_load _

/-! ## Claim C5 -/

/-- C5 (counterexample).  The claim says the integrity check performs no
writes: for every state the backend is unchanged afterwards.  On a store
mixing one clean and one corrupt entry, the check itself persists the
repaired collection — the primary key's value changes. -/
theorem C5_check_writes_counterexample :
    ¬ ((checkDataIntegrity exMixedLS).2.store = exMixedLS.store) := by decide

/-- C5 (amended).  `checkDataIntegrity` is not read-only in general — on
some states the check itself writes, persisting the repaired collection —
but it is read-only on clean states: when the stored collection is
absent/empty or parses to entries that all pass both the load filter and
the integrity checks, and the last-opened pair is absent/empty or
well-formed, the check reports `{isValid: true, issues: [],
autoFixed: false}` and returns the state completely unchanged. -/
theorem C5_check_readonly_when_clean (s : LS)
    (hd : diagramsClean s = true) (hl : lastOpenedClean s = true) :
    checkDataIntegrity s =
      ({ isValid := true, issues := [], autoFixed := false }, s) :=
  checkDataIntegrity_of_clean s hd hl

/-- C5 (witness): the check on a clean one-document store is the identity
on the state. -/
theorem C5_check_readonly_when_clean_witness :
    checkDataIntegrity exCleanLS =
      ({ isValid := true, issues := [], autoFixed := false }, exCleanLS) :=
  C5_check_readonly_when_clean exCleanLS (by decide) (by decide)

/-! ## Claim C7 -/

/-- C7 (counterexample).  The claim says a second check reports an empty
issue list.  When every stored document is corrupt, the auto-fix is skipped
(`validDiagrams.length > 0` fails), so nothing is repaired and the second
check reports the same non-empty issues again. -/
theorem C7_all_invalid_counterexample :
    ¬ ((checkDataIntegrity (checkDataIntegrity exAllBadLS).2).1.issues = [])
    := by decide

/-- C7 (amended).  Provided the persisted collection parses to load-valid
entries of which at least one passes the integrity checks (or the
collection is empty), running the check again on the state left by a first
check reports `autoFixed: false` with an empty issue list and leaves both
the state and hence the persisted collection unchanged. -/
theorem C7_second_check_clean (s : LS) (es : List Json)
    (hf : s.faults = [])
    (h : lsGet s DIAGRAMS_KEY = some (Raw.json (.arr es)))
    (hv : ∀ e ∈ es, entryValidLoad e = true)
    (hne : es = [] ∨ ∃ e ∈ es, (integrityIssues e).isEmpty = true) :
    checkDataIntegrity (checkDataIntegrity s).2 =
      ({ isValid := true, issues := [], autoFixed := false },
       (checkDataIntegrity s).2) := by
  rcases hne with rfl | hne
  · have he := checkDataIntegrity_arr_empty s h
    rw [he]
    exact he
  · obtain ⟨hd, hl⟩ := checkDataIntegrity_post s es hf h hv hne
    exact checkDataIntegrity_of_clean _ hd hl

/-- C7 (witness): rerunning the check after it auto-fixed the mixed store
reports a clean result and changes nothing. -/
theorem C7_second_check_clean_witness :
    checkDataIntegrity (checkDataIntegrity exMixedLS).2 =
      ({ isValid := true, issues := [], autoFixed := false },
       (checkDataIntegrity exMixedLS).2) :=
  C7_second_check_clean exMixedLS [exDoc.normalize.toJson, exBadEntry]
    (by decide) (by decide) (by decide)
    (Or.inr ⟨exDoc.normalize.toJson, by decide, by decide⟩)

/-! ## Claim C3 -/

theorem normal_parts (d : DiagramData) (h : d.normalize = d) :
    d.title ≠ "" ∧ d.icons = [] := by
  have ht := congrArg DiagramData.title h
  have hi := congrArg DiagramData.icons h
  simp only [DiagramData.normalize] at ht hi
  constructor
  · intro he
    rw [he] at ht
    simp at ht
  · exact hi.symm

theorem jsOrUntitled_of_truthy (t : Json) (h : t.truthy = true) :
    jsOrUntitled (some t) = t := by
  simp only [jsOrUntitled]
  rw [if_pos h]

theorem validateData_toJson_normal (d : DiagramData) (h : d.normalize = d) :
    validateData d.toJson = d.toJson := by
  obtain ⟨ht, hi⟩ := normal_parts d h
  have htt : (Json.str d.title).truthy = true := by simp [Json.truthy, ht]
  cases hv : d.version <;> cases hdsc : d.description <;>
    cases hf : d.fitToScreen <;>
      simp only [validateData, DiagramData.toJson, hv, hdsc, hf, optField] <;>
      simp [Json.getField, List.find?, arrOr, jsOrUntitled_of_truthy _ htt]

theorem arrOr_arr (elems : List Json) :
    arrOr (some (.arr elems)) = .arr elems := rfl

theorem arrOr_idem (x : Option Json) : arrOr (some (arrOr x)) = arrOr x := by
  cases x with
  | none => rfl
  | some j => cases j <;> rfl

theorem jsOrUntitled_idem (x : Option Json) :
    jsOrUntitled (some (jsOrUntitled x)) = jsOrUntitled x :=
  jsOrUntitled_of_truthy _ (jsOrUntitled_truthy x)

theorem validateData_sanitizeData (d : Json) :
    validateData (sanitizeData d) = sanitizeData d := by
  cases hv : d.getField "version" <;> cases hdsc : d.getField "description" <;>
    cases hf : d.getField "fitToScreen" <;>
      simp only [sanitizeData, hv, hdsc, hf, optField] <;>
      simp only [validateData, Json.getField, List.find?] <;>
      simp [jsOrUntitled_idem, arrOr_idem, arrOr_arr, optField, List.find?]



theorem dataNormalize_idem (d : DiagramData) :
    d.normalize.normalize = d.normalize := by
  unfold DiagramData.normalize
  by_cases ht : d.title = "" <;> simp [ht]

theorem savedNormalize_idem (sd : SavedDiagram) :
    sd.normalize.normalize = sd.normalize := by
  unfold SavedDiagram.normalize
  rw [dataNormalize_idem]

theorem saveLastOpened_ok (s : LS) (t : String) (d : Json)
    (hf : s.faults = []) (ht : t ≠ "")
    (hd : (d.truthy && d.isObjType) = true) :
    saveLastOpened s (.str t) d =
      (true, { s with
        store := storeSet (storeSet s.store LAST_OPENED_KEY (Raw.plain t))
          LAST_OPENED_DATA_KEY (Raw.json (sanitizeData d)),
        attempts := s.attempts + 2 }) := by
  unfold saveLastOpened
  have h1 : (!((Json.str t).truthy && (Json.str t).isStr)) = false := by
    simp [Json.truthy, Json.isStr, ht]
  have h2 : (!(d.truthy && d.isObjType)) = false := by simp [hd]
  rw [h1, h2]
  simp only [Bool.false_eq_true, if_false]
  rw [safeSetItem_of_no_fault _ _ _ hf]
  rw [safeSetItem_of_no_fault _ _ _ (by simpa using hf)]
  rfl

theorem loadLastOpened_of_values (s : LS) (idr : Raw) (d : Json)
    (h1 : lsGet s LAST_OPENED_KEY = some idr)
    (h2 : lsGet s LAST_OPENED_DATA_KEY = some (Raw.json d))
    (ht1 : idr.truthy = true) (hd : (d.truthy && d.isObjType) = true) :
    loadLastOpened s = (some (idr, validateData d), s) := by
  have htd : (Raw.json d).truthy = true := rfl
  unfold loadLastOpened safeGetItem
  rw [h1, h2]
  simp [ht1, htd, hd]



theorem clearAllData_faults (s : LS) : (clearAllData s).2.faults = s.faults :=
  rfl

/-- C3.  Backup fidelity: over any fault-free state, persist a Collection
`c` of schema-valid documents in persisted normal form (icons already
empty, non-empty title — what `loadDiagrams` hands `createBackup`) and a
LastOpenedPointer; then restoring from the backup created over that state
succeeds, reports `restoredCount = c.length`, and the restored store decodes
to exactly the same Collection (ids, names and payloads byte-for-byte) and
the same LastOpenedPointer. -/
theorem C3_backup_restore_fidelity (s : LS) (c : List SavedDiagram)
    (lpId : String) (lpData : DiagramData) (s₂ : LS) (br : Raw)
    (r : RestoreResult × LS)
    (hf : s.faults = [])
    (hc : ∀ d ∈ c, d.schemaValid ∧ d.normalize = d)
    (hid : lpId ≠ "") (hnd : lpData.normalize = lpData)
    (hs₂ : s₂ = (saveLastOpened (saveDiagrams s
      (c.map SavedDiagram.toJson)).2 (.str lpId) lpData.toJson).2)
    (hbr : (createBackup s₂).1 = some br)
    (hr : r = restoreFromBackup s₂ br) :
    r.1.success = true ∧ r.1.restoredCount = c.length ∧
    (loadDiagrams r.2).1 = c.map SavedDiagram.toJson ∧
    (loadLastOpened r.2).1 = some (Raw.plain lpId, lpData.toJson) := by
  subst hr
  -- the encoded collection and its basic properties
  have hsv : ∀ j ∈ c.map SavedDiagram.toJson, entryValidSave j = true := by
    intro j hj
    rw [List.mem_map] at hj
    obtain ⟨d, hd, rfl⟩ := hj
    exact entryValidSave_toJson d (hc d hd).1
  have hlv : ∀ j ∈ c.map SavedDiagram.toJson, entryValidLoad j = true := by
    intro j hj
    rw [List.mem_map] at hj
    obtain ⟨d, _, rfl⟩ := hj
    exact entryValidLoad_toJson d
  have hmapid : (c.map SavedDiagram.toJson).map sanitizeEntry =
      c.map SavedDiagram.toJson := by
    rw [List.map_map]
    refine List.map_congr_left ?_
    intro d hd
    show sanitizeEntry d.toJson = d.toJson
    rw [sanitizeEntry_toJson, (hc d hd).2]
  have hsan : sanitizeData lpData.toJson = lpData.toJson := by
    rw [sanitizeData_toJson, hnd]
  have hvd : validateData lpData.toJson = lpData.toJson :=
    validateData_toJson_normal lpData hnd
  have hd2 : (lpData.toJson.truthy && lpData.toJson.isObjType) = true := by
    simp [DiagramData.toJson, Json.truthy, Json.isObjType]
  have hidt : (Raw.plain lpId).truthy = true := by simp [Raw.truthy, hid]
  -- run the two saves
  have hsA := saveDiagrams_all_valid s (c.map SavedDiagram.toJson) hf hsv
  rw [hmapid] at hsA
  set sA : LS := { s with
    store := storeSet s.store DIAGRAMS_KEY
      (Raw.json (.arr (c.map SavedDiagram.toJson))),
    attempts := s.attempts + 1 } with hsAdef
  have hsLO := saveLastOpened_ok sA lpId lpData.toJson
    (by simp [hsAdef, hf]) hid hd2
  rw [hsan] at hsLO
  set sTwo : LS := { sA with
    store := storeSet (storeSet sA.store LAST_OPENED_KEY (Raw.plain lpId))
      LAST_OPENED_DATA_KEY (Raw.json lpData.toJson),
    attempts := sA.attempts + 2 } with hsTwodef
  have hs₂' : s₂ = sTwo := by
    rw [hs₂, hsA, hsLO]
  -- lookups in the saved state
  have hK2 : lsGet sTwo DIAGRAMS_KEY =
      some (Raw.json (.arr (c.map SavedDiagram.toJson))) := by
    show listGet (storeSet (storeSet sA.store LAST_OPENED_KEY
      (Raw.plain lpId)) LAST_OPENED_DATA_KEY (Raw.json lpData.toJson))
      DIAGRAMS_KEY = _
    rw [listGet_storeSet_other _ _ _ _ (by decide),
      listGet_storeSet_other _ _ _ _ (by decide)]
    exact listGet_storeSet_self _ _ _
  have hLO2 : lsGet sTwo LAST_OPENED_KEY = some (Raw.plain lpId) := by
    show listGet (storeSet (storeSet sA.store LAST_OPENED_KEY
      (Raw.plain lpId)) LAST_OPENED_DATA_KEY (Raw.json lpData.toJson))
      LAST_OPENED_KEY = _
    rw [listGet_storeSet_other _ _ _ _ (by decide)]
    exact listGet_storeSet_self _ _ _
  have hLOD2 : lsGet sTwo LAST_OPENED_DATA_KEY =
      some (Raw.json lpData.toJson) :=
    listGet_storeSet_self _ _ _
  -- the backup built over the saved state
  have hldB := loadDiagrams_stored sTwo (c.map SavedDiagram.toJson) hK2 hlv
  have hloB := loadLastOpened_of_values sTwo (Raw.plain lpId) lpData.toJson
    hLO2 hLOD2 hidt hd2
  rw [hvd] at hloB
  have hcb : createBackup sTwo =
      (some (Raw.json (.obj [("timestamp", .num sTwo.now),
        ("version", .str "1.0"),
        ("data", .obj [("diagrams", .arr (c.map SavedDiagram.toJson)),
          ("lastOpened", .obj [("id", .str lpId),
            ("data", lpData.toJson)]),
          ("storageInfo", (getStorageInfo sTwo).toJson)])])), sTwo) := by
    unfold createBackup
    rw [hldB]
    simp [hloB, Raw.str]
  rw [hs₂', hcb] at hbr
  simp only [Option.some.injEq] at hbr
  subst hbr
  rw [hs₂']
  -- run the restore
  have hfClr : (clearAllData sTwo).2.faults = [] := by
    show sTwo.faults = []
    rw [hsTwodef]
    show sA.faults = []
    rw [hsAdef]
    exact hf
  have hsB := saveDiagrams_all_valid (clearAllData sTwo).2
    (c.map SavedDiagram.toJson) hfClr hsv
  rw [hmapid] at hsB
  set sB : LS := { (clearAllData sTwo).2 with
    store := storeSet (clearAllData sTwo).2.store DIAGRAMS_KEY
      (Raw.json (.arr (c.map SavedDiagram.toJson))),
    attempts := (clearAllData sTwo).2.attempts + 1 } with hsBdef
  have hfB : sB.faults = [] := by
    rw [hsBdef]
    show (clearAllData sTwo).2.faults = []
    exact hfClr
  have hsC := saveLastOpened_ok sB lpId lpData.toJson hfB hid hd2
  rw [hsan] at hsC
  set sC : LS := { sB with
    store := storeSet (storeSet sB.store LAST_OPENED_KEY (Raw.plain lpId))
      LAST_OPENED_DATA_KEY (Raw.json lpData.toJson),
    attempts := sB.attempts + 2 } with hsCdef
  have hrest : restoreFromBackup sTwo
      (Raw.json (.obj [("timestamp", .num sTwo.now), ("version", .str "1.0"),
        ("data", .obj [("diagrams", .arr (c.map SavedDiagram.toJson)),
          ("lastOpened", .obj [("id", .str lpId), ("data", lpData.toJson)]),
          ("storageInfo", (getStorageInfo sTwo).toJson)])])) =
      ({ success := true, message := "Backup restored successfully",
         restoredCount := (c.map SavedDiagram.toJson).length }, sC) := by
    simp only [restoreFromBackup]
    simp [Json.getField, List.find?, jsTruthy, jsIsArr, Json.truthy,
      hsB, hsC]
  rw [hrest]
  -- final reads over the restored state
  have hKC : lsGet sC DIAGRAMS_KEY =
      some (Raw.json (.arr (c.map SavedDiagram.toJson))) := by
    show listGet (storeSet (storeSet sB.store LAST_OPENED_KEY
      (Raw.plain lpId)) LAST_OPENED_DATA_KEY (Raw.json lpData.toJson))
      DIAGRAMS_KEY = _
    rw [listGet_storeSet_other _ _ _ _ (by decide),
      listGet_storeSet_other _ _ _ _ (by decide)]
    exact listGet_storeSet_self _ _ _
  have hLOC : lsGet sC LAST_OPENED_KEY = some (Raw.plain lpId) := by
    show listGet (storeSet (storeSet sB.store LAST_OPENED_KEY
      (Raw.plain lpId)) LAST_OPENED_DATA_KEY (Raw.json lpData.toJson))
      LAST_OPENED_KEY = _
    rw [listGet_storeSet_other _ _ _ _ (by decide)]
    exact listGet_storeSet_self _ _ _
  have hLODC : lsGet sC LAST_OPENED_DATA_KEY =
      some (Raw.json lpData.toJson) :=
    listGet_storeSet_self _ _ _
  have hldC := loadDiagrams_stored sC (c.map SavedDiagram.toJson) hKC hlv
  have hloC := loadLastOpened_of_values sC (Raw.plain lpId) lpData.toJson
    hLOC hLODC hidt hd2
  rw [hvd] at hloC
  refine ⟨rfl, by simp, ?_, ?_⟩
  · rw [hldC]
  · rw [hloC]

/-- C3 (witness): the full cycle at the one-document store — save, back up,
restore, read back. -/
theorem C3_backup_restore_fidelity_witness :
    (restoreFromBackup exPipeState exBackupRaw).1.success = true ∧
    (restoreFromBackup exPipeState exBackupRaw).1.restoredCount = 1 ∧
    (loadDiagrams (restoreFromBackup exPipeState exBackupRaw).2).1 =
      [exDoc].map SavedDiagram.toJson ∧
    (loadLastOpened (restoreFromBackup exPipeState exBackupRaw).2).1 =
      some (Raw.plain "d1", exDoc.data.toJson) :=
  C3_backup_restore_fidelity baseLS [exDoc] "d1" exDoc.data
    exPipeState exBackupRaw (restoreFromBackup exPipeState exBackupRaw)
    (by decide) (by decide) (by decide) (by decide) rfl rfl rfl

end Saga3D


